import Mathlib

/-! # Credential translation and session brokering of the MCP gateway

A shallow embedding of `gtlib/upstream.go` (package `lib`): the credential
translator `getAuthorizationHeaderFromBearer`, the session table operations
`CallTool` and `Close` of `mcpAuthImpl`, and the catalog publisher
`ToolsToServerTools`; and of the startup path of `cli/main/main.go` and
`gtlib/server.go`.

Go strings are byte sequences; a byte is a natural number below 256.
-/

namespace Gateway

/-- A Go `string` (equally a `[]byte`): the sequence of its bytes. -/
abbrev GoString := List Nat

/-- The bytes of a string literal (UTF-8). -/
def lit (s : String) : GoString :=
  s.data.flatMap fun c => (String.utf8EncodeChar c).map UInt8.toNat

/-- A Go `map[string]T`: the keys that are present with their values.  The
nil map and the empty map are both the empty list; the operations below keep
at most one entry per key. -/
abbrev GoMap (α : Type) := List (GoString × α)

/-- The Go lookup `v, ok := m[k]`; `none` when `ok` is false. -/
def GoMap.get {α : Type} (m : GoMap α) (k : GoString) : Option α :=
  match m with
  | [] => none
  | (k', v) :: rest => if k' = k then some v else GoMap.get rest k

/-- The Go assignment `m[k] = v`. -/
def GoMap.set {α : Type} (m : GoMap α) (k : GoString) (v : α) : GoMap α :=
  match m with
  | [] => [(k, v)]
  | (k', v') :: rest => if k' = k then (k, v) :: rest else (k', v') :: GoMap.set rest k v

/-- The Go builtin `delete(m, k)`. -/
def GoMap.delete {α : Type} (m : GoMap α) (k : GoString) : GoMap α :=
  match m with
  | [] => []
  | (k', v') :: rest => if k' = k then GoMap.delete rest k else (k', v') :: GoMap.delete rest k

/-! ## Package `strings` -/

namespace strings

/-- Go `strings.HasPrefix(s, pre)`: does `s` begin with `pre`. -/
def HasPrefix (s pre : GoString) : Bool :=
  pre.isPrefixOf s

/-- Go `strings.TrimPrefix(s, pre)`: `s` without the leading `pre`, or `s`
itself when it does not begin with `pre`. -/
def TrimPrefix (s pre : GoString) : GoString :=
  if HasPrefix s pre then s.drop pre.length else s

/-- Go `strings.Split(s, sep)` for a one-byte separator `sep`: the pieces of
`s` between consecutive occurrences of the separator byte.  The result is
never empty; `Split "" sep` is the single empty piece. -/
def Split (s : GoString) (sep : Nat) : List GoString :=
  match s with
  | [] => [[]]
  | c :: rest =>
    if c = sep then [] :: Split rest sep
    else
      match Split rest sep with
      | [] => [[c]]
      | piece :: pieces => (c :: piece) :: pieces

end strings

/-! ## Package `encoding/base64`, `StdEncoding` -/

namespace base64

/-- The `decodeMap` of `StdEncoding`: the six-bit value of an alphabet byte
(`A`-`Z`, `a`-`z`, `0`-`9`, `+`, `/`), `none` for every other byte. -/
def decodeMap (c : Nat) : Option Nat :=
  if 65 ≤ c ∧ c ≤ 90 then some (c - 65)
  else if 97 ≤ c ∧ c ≤ 122 then some (c - 71)
  else if 48 ≤ c ∧ c ≤ 57 then some (c + 4)
  else if c = 43 then some 62
  else if c = 47 then some 63
  else none

/-- Line feed and carriage return, which the decoder skips. -/
def isNewline (c : Nat) : Bool :=
  c = 10 || c = 13

/-- The 24-bit value assembled from four six-bit values. -/
def assemble (a b c d : Nat) : Nat :=
  a * 262144 + b * 4096 + c * 64 + d

/-- The decoding loop of `Encoding.Decode` with `decodeQuantum` inlined.
`dbuf` holds the six-bit values read so far in the current quantum.  The
result is `none` where Go reports a `CorruptInputError`.  `StdEncoding` is
padded (`=`) and not strict: the unused low bits of a final partial quantum
are not checked. -/
def decodeLoop (dbuf : List Nat) (src : GoString) : Option GoString :=
  match src with
  | [] =>
    match dbuf with
    | [] => some []
    | _ => none
  | x :: rest =>
    match decodeMap x with
    | some v =>
      match dbuf with
      | [a, b, c] =>
        let val := assemble a b c v
        (decodeLoop [] rest).map fun out =>
          val / 65536 % 256 :: val / 256 % 256 :: val % 256 :: out
      | _ => decodeLoop (dbuf ++ [v]) rest
    | none =>
      if isNewline x then decodeLoop dbuf rest
      else if x ≠ 61 then none
      else
        match dbuf with
        | [a, b] =>
          match rest.dropWhile isNewline with
          | 61 :: tail =>
            if tail.all isNewline then some [assemble a b 0 0 / 65536 % 256] else none
          | _ => none
        | [a, b, c] =>
          if rest.all isNewline then
            some [assemble a b c 0 / 65536 % 256, assemble a b c 0 / 256 % 256]
          else none
        | _ => none

/-- Go `base64.StdEncoding.DecodeString(s)`: the decoded bytes, or `none`
when Go returns a non-nil error. -/
def DecodeString (s : GoString) : Option GoString :=
  decodeLoop [] s

/-- The `encode` table of `StdEncoding`: the alphabet byte of a six-bit
value. -/
def encodeStd (v : Nat) : Nat :=
  if v < 26 then 65 + v
  else if v < 52 then 71 + v
  else if v < 62 then v - 4
  else if v = 62 then 43
  else 47

/-- Go `base64.StdEncoding.EncodeToString(src)`: four alphabet bytes for
every three input bytes, the last group padded with `=`. -/
def EncodeToString (src : GoString) : GoString :=
  match src with
  | [] => []
  | [a] =>
    let val := a * 65536
    [encodeStd (val / 262144 % 64), encodeStd (val / 4096 % 64), 61, 61]
  | [a, b] =>
    let val := a * 65536 + b * 256
    [encodeStd (val / 262144 % 64), encodeStd (val / 4096 % 64), encodeStd (val / 64 % 64), 61]
  | a :: b :: c :: rest =>
    let val := a * 65536 + b * 256 + c
    encodeStd (val / 262144 % 64) :: encodeStd (val / 4096 % 64) ::
      encodeStd (val / 64 % 64) :: encodeStd (val % 64) :: EncodeToString rest

end base64

/-! ## Package `unicode/utf8` and `unicode/utf16` -/

namespace utf8

/-- A UTF-8 continuation byte, `0x80`-`0xBF`. -/
def isCont (b : Nat) : Bool :=
  0x80 ≤ b && b ≤ 0xBF

/-- The size reported by Go `utf8.DecodeRune(p)` when `p` begins with a
well-formed encoding, and `0` where Go reports `(RuneError, 1)` or `p` is
empty. -/
def validSize (p : GoString) : Nat :=
  match p with
  | [] => 0
  | p0 :: t =>
    if p0 < 0x80 then 1
    else if p0 < 0xC2 then 0
    else if p0 < 0xE0 then
      match t with
      | b1 :: _ => if isCont b1 then 2 else 0
      | _ => 0
    else if p0 < 0xF0 then
      let lo := if p0 = 0xE0 then 0xA0 else 0x80
      let hi := if p0 = 0xED then 0x9F else 0xBF
      match t with
      | b1 :: b2 :: _ => if lo ≤ b1 ∧ b1 ≤ hi ∧ isCont b2 then 3 else 0
      | _ => 0
    else if p0 < 0xF5 then
      let lo := if p0 = 0xF0 then 0x90 else 0x80
      let hi := if p0 = 0xF4 then 0x8F else 0xBF
      match t with
      | b1 :: b2 :: b3 :: _ => if lo ≤ b1 ∧ b1 ≤ hi ∧ isCont b2 ∧ isCont b3 then 4 else 0
      | _ => 0
    else 0

/-- The encoding of `utf8.RuneError` (U+FFFD). -/
def runeError : GoString := [0xEF, 0xBF, 0xBD]

/-- Go `utf8.EncodeRune`: the UTF-8 bytes of rune `r`; surrogates and values
above U+10FFFF are written as U+FFFD. -/
def EncodeRune (r : Nat) : GoString :=
  if r ≤ 0x7F then [r]
  else if r ≤ 0x7FF then [0xC0 + r / 64, 0x80 + r % 64]
  else if r > 0x10FFFF ∨ (0xD800 ≤ r ∧ r ≤ 0xDFFF) then runeError
  else if r ≤ 0xFFFF then [0xE0 + r / 4096, 0x80 + r / 64 % 64, 0x80 + r % 64]
  else [0xF0 + r / 262144, 0x80 + r / 4096 % 64, 0x80 + r / 64 % 64, 0x80 + r % 64]

end utf8

namespace utf16

/-- Go `utf16.IsSurrogate`. -/
def IsSurrogate (r : Nat) : Bool :=
  0xD800 ≤ r && r < 0xE000

/-- Go `utf16.DecodeRune(r1, r2)`: the rune of a surrogate pair, `none` where
Go returns U+FFFD because the pair is not valid. -/
def DecodeRune (r1 r2 : Nat) : Option Nat :=
  if 0xD800 ≤ r1 ∧ r1 < 0xDC00 ∧ 0xDC00 ≤ r2 ∧ r2 < 0xE000 then
    some ((r1 - 0xD800) * 1024 + (r2 - 0xDC00) + 0x10000)
  else none

end utf16

/-! ## Package `encoding/json` -/

namespace json

/-- What `json.Unmarshal` stores in an `interface{}`: `nil`, `bool`,
`float64`, `string`, `[]interface{}` or `map[string]interface{}`.  The
`float64` conversion is not modelled; a number carries its literal text. -/
inductive Value where
  | null
  | bool (b : Bool)
  | number (literal : GoString)
  | string (s : GoString)
  | array (elems : List Value)
  | object (members : List (GoString × Value))

/-- A Go `map[string]interface{}`. -/
abbrev Map := GoMap Value

/-- The value of a hexadecimal digit. -/
def hexVal (c : Nat) : Option Nat :=
  if 48 ≤ c ∧ c ≤ 57 then some (c - 48)
  else if 97 ≤ c ∧ c ≤ 102 then some (c - 87)
  else if 65 ≤ c ∧ c ≤ 70 then some (c - 55)
  else none

/-- Go `getu4`: the rune of a leading `\uXXXX`, `none` where Go returns -1. -/
def getu4 (s : GoString) : Option Nat :=
  match s with
  | 92 :: 117 :: a :: b :: c :: d :: _ =>
    match hexVal a, hexVal b, hexVal c, hexVal d with
    | some a, some b, some c, some d => some (((a * 16 + b) * 16 + c) * 16 + d)
    | _, _, _, _ => none
  | _ => none

/-- One iteration of the copying loop of Go `unquoteBytes` at a position
where byte `c` is followed by `rest`: the bytes written and the number of
input bytes consumed, `none` where Go gives up. -/
def unquoteStep (c : Nat) (rest : GoString) : Option (GoString × Nat) :=
  if c = 92 then
    match rest with
    | [] => none
    | e :: _ =>
      if e = 34 ∨ e = 92 ∨ e = 47 ∨ e = 39 then some ([e], 2)
      else if e = 98 then some ([8], 2)
      else if e = 102 then some ([12], 2)
      else if e = 110 then some ([10], 2)
      else if e = 114 then some ([13], 2)
      else if e = 116 then some ([9], 2)
      else if e = 117 then
        match getu4 (c :: rest) with
        | none => none
        | some rr =>
          if utf16.IsSurrogate rr then
            match (getu4 (rest.drop 5)).bind (utf16.DecodeRune rr) with
            | some dec => some (utf8.EncodeRune dec, 12)
            | none => some (utf8.runeError, 6)
          else some (utf8.EncodeRune rr, 6)
      else none
  else if c = 34 ∨ c < 32 then none
  else if c < 0x80 then some ([c], 1)
  else
    match utf8.validSize (c :: rest) with
    | 0 => some (utf8.runeError, 1)
    | size => some ((c :: rest).take size, size)

/-- The copying loop of Go `unquoteBytes` over the text between the quotes;
`skip` counts input bytes already consumed by an earlier iteration. -/
def unquoteLoop (skip : Nat) (s : GoString) : Option GoString :=
  match skip, s with
  | _, [] => some []
  | skip + 1, _ :: rest => unquoteLoop skip rest
  | 0, c :: rest =>
    match unquoteStep c rest with
    | none => none
    | some (out, consumed) => (unquoteLoop (consumed - 1) rest).map fun more => out ++ more

/-- Go `unquoteBytes` applied to a quoted literal whose inner text is `raw`:
escapes are resolved and malformed UTF-8 is replaced by U+FFFD. -/
def unquote (raw : GoString) : Option GoString :=
  unquoteLoop 0 raw

/-- JSON insignificant whitespace: space, tab, carriage return, line feed. -/
def isSpace (c : Nat) : Bool :=
  c = 32 || c = 9 || c = 13 || c = 10

/-- A decimal digit. -/
def isDigit (c : Nat) : Bool :=
  48 ≤ c && c ≤ 57

/-- The scanner states inside a number literal (`stateNeg`, `state0`,
`state1`, `stateDot`, `stateDot0`, `stateE`, `stateESign`, `stateE0`). -/
inductive NumState where
  | neg | zero | int | dot | frac | e | esign | exp
  deriving DecidableEq

/-- May a number literal end in this state. -/
def NumState.accepting : NumState → Bool
  | .zero | .int | .frac | .exp => true
  | _ => false

/-- The scanner transition on one more byte of a number literal; `none`
when the byte does not continue the literal. -/
def NumState.next (st : NumState) (c : Nat) : Option NumState :=
  match st with
  | .neg => if c = 48 then some .zero else if isDigit c then some .int else none
  | .zero => if c = 46 then some .dot else if c = 101 ∨ c = 69 then some .e else none
  | .int =>
    if isDigit c then some .int
    else if c = 46 then some .dot else if c = 101 ∨ c = 69 then some .e else none
  | .dot => if isDigit c then some .frac else none
  | .frac => if isDigit c then some .frac else if c = 101 ∨ c = 69 then some .e else none
  | .e => if c = 43 ∨ c = 45 then some .esign else if isDigit c then some .exp else none
  | .esign => if isDigit c then some .exp else none
  | .exp => if isDigit c then some .exp else none

/-- An open container on the parse stack: an array with the elements read so
far, or an object with the members stored so far and the key whose value is
awaited. -/
inductive Frame where
  | arr (elems : List Value)
  | obj (members : Map) (key : Option GoString)

/-- The scanner position between and inside tokens. -/
inductive Mode where
  /-- A value must begin (`orEmpty`: or the array just opened may close). -/
  | beginValue (orEmpty : Bool)
  /-- An object key must begin (`orEmpty`: or the object just opened may close). -/
  | beginString (orEmpty : Bool)
  /-- Inside a string literal; `esc` is 0 in plain text, 1 after a backslash,
  and `n + 1` while `n` hexadecimal digits of a `\u` escape are awaited. -/
  | inString (isKey : Bool) (raw : GoString) (esc : Nat)
  /-- After an object key: a colon must follow. -/
  | afterKey
  | inNumber (raw : GoString) (st : NumState)
  /-- Inside `true`, `false` or `null`; `rest` is the text still awaited. -/
  | inLiteral (rest : GoString) (v : Value)
  /-- After a value inside a container. -/
  | endValue
  /-- After the top-level value. -/
  | endTop (v : Value)

/-- Scanner and decoder state. -/
structure State where
  mode : Mode
  stack : List Frame

/-- Go `maxNestingDepth`. -/
def maxNestingDepth : Nat := 10000

/-- A value is complete: it becomes the top-level value, an array element or
the value of the awaited key. -/
def complete (v : Value) (stack : List Frame) : Option State :=
  match stack with
  | [] => some ⟨.endTop v, []⟩
  | .arr elems :: st => some ⟨.endValue, .arr (elems ++ [v]) :: st⟩
  | .obj members (some k) :: st => some ⟨.endValue, .obj (GoMap.set members k v) none :: st⟩
  | .obj _ none :: _ => none

/-- A container is opened, unless that would exceed the nesting limit. -/
def push (f : Frame) (m : Mode) (stack : List Frame) : Option State :=
  if stack.length + 1 ≤ maxNestingDepth then some ⟨m, f :: stack⟩ else none

/-- The transition after a complete value (`stateEndValue`, `stateEndTop`). -/
def stepEnd (s : State) (c : Nat) : Option State :=
  if isSpace c then some s
  else
    match s.mode, s.stack with
    | .endValue, .arr elems :: st =>
      if c = 44 then some ⟨.beginValue false, .arr elems :: st⟩
      else if c = 93 then complete (.array elems) st
      else none
    | .endValue, .obj members none :: st =>
      if c = 44 then some ⟨.beginString false, .obj members none :: st⟩
      else if c = 125 then complete (.object members) st
      else none
    | _, _ => none

/-- The transition where a value must begin (`stateBeginValue`,
`stateBeginValueOrEmpty`). -/
def stepBeginValue (orEmpty : Bool) (stack : List Frame) (c : Nat) : Option State :=
  if isSpace c then some ⟨.beginValue orEmpty, stack⟩
  else if c = 93 then
    match orEmpty, stack with
    | true, .arr elems :: st => complete (.array elems) st
    | _, _ => none
  else if c = 123 then push (.obj [] none) (.beginString true) stack
  else if c = 91 then push (.arr []) (.beginValue true) stack
  else if c = 34 then some ⟨.inString false [] 0, stack⟩
  else if c = 45 then some ⟨.inNumber [c] .neg, stack⟩
  else if c = 48 then some ⟨.inNumber [c] .zero, stack⟩
  else if isDigit c then some ⟨.inNumber [c] .int, stack⟩
  else if c = 116 then some ⟨.inLiteral [114, 117, 101] (.bool true), stack⟩
  else if c = 102 then some ⟨.inLiteral [97, 108, 115, 101] (.bool false), stack⟩
  else if c = 110 then some ⟨.inLiteral [117, 108, 108] .null, stack⟩
  else none

/-- The transition inside a string literal (`stateInString`,
`stateInStringEsc`, `stateInStringEscU` and its successors). -/
def stepString (isKey : Bool) (raw : GoString) (esc : Nat) (stack : List Frame) (c : Nat) :
    Option State :=
  match esc with
  | 0 =>
    if c = 34 then
      match unquote raw with
      | none => none
      | some str =>
        if isKey then
          match stack with
          | .obj members none :: st => some ⟨.afterKey, .obj members (some str) :: st⟩
          | _ => none
        else complete (.string str) stack
    else if c = 92 then some ⟨.inString isKey (raw ++ [c]) 1, stack⟩
    else if c < 32 then none
    else some ⟨.inString isKey (raw ++ [c]) 0, stack⟩
  | 1 =>
    if c = 98 ∨ c = 102 ∨ c = 110 ∨ c = 114 ∨ c = 116 ∨ c = 92 ∨ c = 47 ∨ c = 34 then
      some ⟨.inString isKey (raw ++ [c]) 0, stack⟩
    else if c = 117 then some ⟨.inString isKey (raw ++ [c]) 5, stack⟩
    else none
  | n + 2 =>
    if (hexVal c).isSome then some ⟨.inString isKey (raw ++ [c]) (if n = 0 then 0 else n + 1), stack⟩
    else none

/-- One scanner transition on byte `c`; `none` is a syntax error. -/
def step (s : State) (c : Nat) : Option State :=
  match s.mode with
  | .beginValue orEmpty => stepBeginValue orEmpty s.stack c
  | .beginString orEmpty =>
    if isSpace c then some s
    else if c = 125 then
      match orEmpty, s.stack with
      | true, .obj members none :: st => complete (.object members) st
      | _, _ => none
    else if c = 34 then some ⟨.inString true [] 0, s.stack⟩
    else none
  | .inString isKey raw esc => stepString isKey raw esc s.stack c
  | .afterKey =>
    if isSpace c then some s
    else if c = 58 then some ⟨.beginValue false, s.stack⟩
    else none
  | .inNumber raw st =>
    match st.next c with
    | some st' => some ⟨.inNumber (raw ++ [c]) st', s.stack⟩
    | none =>
      if st.accepting then (complete (.number raw) s.stack).bind fun s' => stepEnd s' c
      else none
  | .inLiteral rest v =>
    match rest with
    | [] => none
    | [x] => if c = x then complete v s.stack else none
    | x :: more => if c = x then some ⟨.inLiteral more v, s.stack⟩ else none
  | .endValue => stepEnd s c
  | .endTop _ => stepEnd s c

/-- The scanner run over the whole input. -/
def scan (s : State) (data : GoString) : Option State :=
  match data with
  | [] => some s
  | c :: rest => (step s c).bind fun s' => scan s' rest

/-- The JSON value spelled by `data`, `none` when `data` is not one valid JSON
text (Go `checkValid` reports a `SyntaxError`). -/
def parse (data : GoString) : Option Value :=
  match scan ⟨.beginValue false, []⟩ data with
  | some ⟨.endTop v, []⟩ => some v
  | some ⟨.inNumber raw st, []⟩ => if st.accepting then some (.number raw) else none
  | _ => none

/-- Go `json.Unmarshal(data, &m)` for `m` of type `map[string]interface{}`
holding `m0`: the map left in `m`.  A JSON object stores its members (a
repeated key keeps its last value), `null` sets the map to nil, and invalid
JSON or any other top-level value is an error that leaves the map untouched.
The returned `error` is not modelled: the caller only prints it.  (A number
outside the `float64` range also makes Go return an error, after the members
have been stored; the map is then filled all the same.) -/
def Unmarshal (data : GoString) (m0 : Map) : Map :=
  match parse data with
  | some (.object members) => members.foldl (fun m kv => GoMap.set m kv.1 kv.2) m0
  | some .null => []
  | _ => m0

end json

/-! ## Packages `slices` and `os` -/

namespace slices

/-- Go `slices.Contains(s, v)`: is `v` equal to an element of `s`. -/
def Contains (s : List GoString) (v : GoString) : Bool :=
  match s with
  | [] => false
  | x :: rest => x = v || Contains rest v

end slices

namespace os

/-- The process environment: the variables that are set, with their values. -/
abbrev Environ := List (GoString × GoString)

/-- Go `os.Getenv(key)`: the value of the variable, empty when it is unset. -/
def Getenv (env : Environ) (key : GoString) : GoString :=
  match env with
  | [] => []
  | (k, v) :: rest => if k = key then v else Getenv rest key

end os

/-! ## The credential translator -/

/-- The part of `getAuthorizationHeaderFromBearer` that fills the local
variable `decodedToken` from the token after the `Bearer ` prefix
(`upstream.go` lines 346-365): the claims of the middle segment when the token
has exactly three `.`-separated segments, the middle one decodes as standard
base64 and the decoded bytes unmarshal; the nil map otherwise. -/
def decodedToken (token : GoString) : json.Map :=
  let tokenParts := strings.Split token 46
  if h : tokenParts.length = 3 then
    let tokenPart := tokenParts[1]
    match base64.DecodeString tokenPart with
    | none => []
    | some decodedPart => json.Unmarshal decodedPart []
  else []

/-- The function `getAuthorizationHeaderFromBearer` of `upstream.go`, with the
process environment read by `os.Getenv` as the parameter `env`.  Diagnostic
prints are omitted. -/
def getAuthorizationHeaderFromBearer (env : os.Environ) (auth : GoString) : GoString :=
  if !strings.HasPrefix auth (lit "Bearer ") then lit ""
  else
    let token := strings.TrimPrefix auth (lit "Bearer ")
    match GoMap.get (decodedToken token) (lit "scope") with
    | none => lit ""
    | some scopesObj =>
      match scopesObj with
      | .string scopesStr =>
        let scopes := strings.Split scopesStr 32
        let requiredScope := os.Getenv env (lit "REQUIRED_SCOPE")
        let scopeMatches := slices.Contains scopes requiredScope
        if scopeMatches then os.Getenv env (lit "UPSTREAM_HEADER_TO_USE_IF_IN_AUDIENCE")
        else os.Getenv env (lit "UPSTREAM_HEADER_TO_USE_IF_NOT_IN_AUDIENCE")
      | _ => lit ""

/-! ## The protocol library and the world outside the program

The types and operations of the protocol library (`mcp-go`) and of `net/http`
that `upstream.go` uses.  Their behaviour is not part of the program: what
the upstream does is given by an `Upstream` oracle, and every operation on the
library is recorded in the `World`. -/

namespace http

/-- Go `http.Header`, keyed by canonical header names. -/
abbrev Header := GoMap (List GoString)

/-- Go `Header.Get(key)` for a key in canonical form (`Authorization` and
`Mcp-Session-Id` are): the first value stored under the key, empty when
there is none. -/
def Header.Get (h : Header) (key : GoString) : GoString :=
  match GoMap.get h key with
  | some (v :: _) => v
  | _ => []

end http

namespace mcp

/-- Modelled from the spec: the type `mcp.Tool` of the protocol library, a
tool descriptor with its name, description and input schema. -/
structure Tool where
  Name : GoString
  Description : GoString
  InputSchema : GoString
  deriving DecidableEq

/-- Modelled from the spec: the type `mcp.CallToolRequest`, the tool name and
arguments of a call together with the headers of the inbound request. -/
structure CallToolRequest where
  Header : http.Header
  Name : GoString
  Arguments : GoString
  deriving DecidableEq

/-- Modelled from the spec: the type `mcp.CallToolResult`. -/
structure CallToolResult where
  Content : GoString
  IsError : Bool
  deriving DecidableEq

end mcp

namespace transport

/-- The options of the streamable HTTP transport that the program passes. -/
inductive StreamableHTTPCOption where
  | WithContinuousListening
  | WithHTTPHeaders (headers : GoMap GoString)
  deriving DecidableEq

/-- The headers sent by a transport built with `options`: every
`WithHTTPHeaders` assigns the header map, so the last one stands. -/
def headers (options : List StreamableHTTPCOption) : GoMap GoString :=
  options.foldl
    (fun h o =>
      match o with
      | .WithHTTPHeaders hs => hs
      | .WithContinuousListening => h)
    []

end transport

namespace client

/-- A `*client.Client`: the identity of the client object, and the endpoint
and options it was built with. -/
structure Client where
  id : Nat
  url : GoString
  options : List transport.StreamableHTTPCOption
  deriving DecidableEq

end client

/-- A Go `error` value: one made by the library, or one built by
`fmt.Errorf` from a format and a string (`%q`) or a wrapped error (`%w`). -/
inductive error where
  | library (msg : GoString)
  | ErrorfString (format : GoString) (arg : GoString)
  | ErrorfWrap (format : GoString) (cause : error)
  deriving DecidableEq

/-- An operation performed on the protocol library. -/
inductive Event where
  | NewStreamableHttpClient (url : GoString) (options : List transport.StreamableHTTPCOption)
      (created : Option client.Client)
  | Initialize (c : client.Client) (err : Option error)
  | CallTool (c : client.Client) (request : mcp.CallToolRequest)
  | Close (c : client.Client)
  deriving DecidableEq

/-- The world outside the program: the number of client objects created so
far, the operations performed on the library in order, and the clock. -/
structure World where
  nextClient : Nat
  log : List Event
  now : Nat
  deriving DecidableEq

/-- What the library and the upstream server answer, as a function of the
world in which an operation starts. -/
structure Upstream where
  newClientErr : World → GoString → List transport.StreamableHTTPCOption → Option error
  initializeErr : World → client.Client → Option error
  sessionId : World → client.Client → GoString
  callTool : World → client.Client → mcp.CallToolRequest →
    Option mcp.CallToolResult × Option error
  elapsed : World → Nat

/-- The world after an operation: it is recorded and has taken some time. -/
def World.record (up : Upstream) (w : World) (e : Event) : World :=
  { w with log := w.log ++ [e], now := w.now + up.elapsed w }

/-- Go `time.Now()`. -/
def World.Now (w : World) : Nat :=
  w.now

namespace client

/-- Go `client.NewStreamableHttpClient(url, options...)`. -/
def NewStreamableHttpClient (up : Upstream) (w : World) (url : GoString)
    (options : List transport.StreamableHTTPCOption) : Except error Client × World :=
  match up.newClientErr w url options with
  | some err => (.error err, w.record up (.NewStreamableHttpClient url options none))
  | none =>
    let c : Client := { id := w.nextClient, url := url, options := options }
    (.ok c,
      { w.record up (.NewStreamableHttpClient url options (some c)) with
        nextClient := w.nextClient + 1 })

/-- Go `(*Client).Initialize(ctx, request)`; only the error is used. -/
def Client.Initialize (up : Upstream) (w : World) (c : Client) : Option error × World :=
  let err := up.initializeErr w c
  (err, w.record up (.Initialize c err))

/-- Go `(*Client).GetSessionId()`. -/
def Client.GetSessionId (up : Upstream) (w : World) (c : Client) : GoString :=
  up.sessionId w c

/-- Go `(*Client).CallTool(ctx, request)`. -/
def Client.CallTool (up : Upstream) (w : World) (c : Client) (request : mcp.CallToolRequest) :
    (Option mcp.CallToolResult × Option error) × World :=
  (up.callTool w c request, w.record up (.CallTool c request))

/-- Go `(*Client).Close()`; the program ignores its result. -/
def Client.Close (up : Upstream) (w : World) (c : Client) : World :=
  w.record up (.Close c)

end client

/-! ## The session broker -/

/-- The type `downstreamSessionID` of `upstream.go`. -/
abbrev downstreamSessionID := GoString

/-- The type `upstreamSessionID` of `upstream.go`. -/
abbrev upstreamSessionID := GoString

/-- The struct `upstreamSessionState` of `upstream.go`. -/
structure upstreamSessionState where
  initialized : Bool
  client : client.Client
  sessionID : upstreamSessionID
  lastContact : Nat
  deriving DecidableEq

/-- The struct `mcpAuthImpl` of `upstream.go`: the upstream URL, the session
table and the tools listed at startup (`mcpServer.toolsResult.Tools`).  Each
`*upstreamSessionState` is stored under one key only, so the table holds the
structs themselves. -/
structure mcpAuthImpl where
  url : GoString
  serverSessions : GoMap upstreamSessionState
  tools : List mcp.Tool
  deriving DecidableEq

/-- The two results of `CallTool`, with the broker and the world after it. -/
abbrev CallToolOutcome := (Option mcp.CallToolResult × Option error) × mcpAuthImpl × World

/-- The method `createMCPClient` of `upstream.go`; the `InitializeResult` it
also returns is dropped by its only caller. -/
def mcpAuthImpl.createMCPClient (up : Upstream) (env : os.Environ) (m : mcpAuthImpl) (w : World)
    (authorization : GoString) (options : List transport.StreamableHTTPCOption) :
    Except error client.Client × World :=
  let authHeader := getAuthorizationHeaderFromBearer env authorization
  let options :=
    if authHeader ≠ lit "" then
      options ++ [.WithHTTPHeaders [(lit "Authorization", authHeader)]]
    else options
  match client.NewStreamableHttpClient up w m.url options with
  | (.error err, w1) => (.error (.ErrorfWrap (lit "failed to create client: %w") err), w1)
  | (.ok httpClient, w1) =>
    match httpClient.Initialize up w1 with
    | (some err, w2) =>
      let w3 := httpClient.Close up w2
      (.error (.ErrorfWrap (lit "initialization failed: %w") err), w3)
    | (none, w2) => (.ok httpClient, w2)

/-- The method `createUpstreamSession` of `upstream.go`. -/
def mcpAuthImpl.createUpstreamSession (up : Upstream) (env : os.Environ) (m : mcpAuthImpl)
    (w : World) (authorization : GoString) (options : List transport.StreamableHTTPCOption) :
    Except error upstreamSessionState × World :=
  match m.createMCPClient up env w authorization options with
  | (.error err, w1) => (.error err, w1)
  | (.ok c, w1) =>
    (.ok
      { initialized := true
        client := c
        sessionID := c.GetSessionId up w1
        lastContact := w1.Now },
      w1)

/-- The end of `CallTool` (`upstream.go` lines 229-234), reached with the
resolved session `upstreamSession`, which the table holds under
`downstreamSession`: the request is forwarded and, when that fails, the
session's `lastContact` is set. -/
def mcpAuthImpl.forward (up : Upstream) (m : mcpAuthImpl) (w : World)
    (downstreamSession : downstreamSessionID) (upstreamSession : upstreamSessionState)
    (request : mcp.CallToolRequest) : CallToolOutcome :=
  match upstreamSession.client.CallTool up w request with
  | ((res, err), w1) =>
    let m1 :=
      if err ≠ none then
        { m with
          serverSessions :=
            GoMap.set m.serverSessions downstreamSession
              { upstreamSession with lastContact := w1.Now } }
      else m
    ((res, err), m1, w1)

/-- The opening of a session by `CallTool` for a caller ID that has none
(`upstream.go` lines 210-222): the inbound Authorization header is
translated, the translation, when not empty, becomes a header option, and
`createUpstreamSession` is called with the inbound header and the options. -/
def mcpAuthImpl.openSession (up : Upstream) (env : os.Environ) (m : mcpAuthImpl) (w : World)
    (request : mcp.CallToolRequest) : Except error upstreamSessionState × World :=
  let incomingAuthHeader := request.Header.Get (lit "Authorization")
  let serverAuthHeaderValue := getAuthorizationHeaderFromBearer env incomingAuthHeader
  let options : List transport.StreamableHTTPCOption :=
    if serverAuthHeaderValue ≠ lit "" then
      [.WithHTTPHeaders [(lit "Authorization", serverAuthHeaderValue)]]
    else []
  m.createUpstreamSession up env w incomingAuthHeader options

/-- The method `CallTool` of `upstream.go`, run sequentially. -/
def mcpAuthImpl.CallTool (up : Upstream) (env : os.Environ) (m : mcpAuthImpl) (w : World)
    (downstreamSession : downstreamSessionID) (request : mcp.CallToolRequest) :
    CallToolOutcome :=
  match GoMap.get m.serverSessions downstreamSession with
  | none =>
    match m.openSession up env w request with
    | (.error err, w1) =>
      ((none, some (.ErrorfWrap (lit "could not open upstream: %w") err)), m, w1)
    | (.ok upstreamSession, w1) =>
      let m1 :=
        { m with
          serverSessions := GoMap.set m.serverSessions downstreamSession upstreamSession }
      m1.forward up w1 downstreamSession upstreamSession request
  | some upstreamSession => m.forward up w downstreamSession upstreamSession request

/-- The method `Close` of `upstream.go`. -/
def mcpAuthImpl.Close (up : Upstream) (m : mcpAuthImpl) (w : World)
    (downstreamSession : downstreamSessionID) : Option error × mcpAuthImpl × World :=
  match GoMap.get m.serverSessions downstreamSession with
  | none => (some (.ErrorfString (lit "unknown session %q") downstreamSession), m, w)
  | some serverSession =>
    let w1 := serverSession.client.Close up w
    (none, { m with serverSessions := GoMap.delete m.serverSessions downstreamSession }, w1)

/-- The method `Tools` of `upstream.go`. -/
def mcpAuthImpl.Tools (m : mcpAuthImpl) : List mcp.Tool :=
  m.tools

/-! ## The catalog publisher -/

namespace server

/-- The type `server.ServerTool` of the protocol library: a tool and its
handler.  The handler runs on the broker and world of the time of the call. -/
structure ServerTool where
  Tool : mcp.Tool
  Handler : Upstream → os.Environ → mcpAuthImpl → World → mcp.CallToolRequest → CallToolOutcome

end server

/-- A value of the interface `MCPUpstream`: a `*mcpAuthImpl`, or some other
implementation. -/
inductive MCPUpstream where
  | mcpAuthImpl (m : Gateway.mcpAuthImpl)
  | other

/-- The function `toolToServerTool` of `upstream.go`.  The pointer `m` the Go
closure captures is the broker argument of the handler. -/
def toolToServerTool (newTool : mcp.Tool) : server.ServerTool :=
  { Tool := newTool
    Handler := fun up env m w request =>
      m.CallTool up env w (request.Header.Get (lit "Mcp-Session-Id")) request }

/-- The function `ToolsToServerTools` of `upstream.go`; the result is an
error where Go panics.  The argument `mcpURL` is only logged. -/
def ToolsToServerTools (mcpUpstream : MCPUpstream) (_mcpURL : GoString)
    (newTools : List mcp.Tool) : Except GoString (List server.ServerTool) :=
  match mcpUpstream with
  | .other => .error (lit "mcpUpstream unknown impl")
  | .mcpAuthImpl _ =>
    .ok (newTools.foldl (fun tools newTool => tools ++ [toolToServerTool newTool]) [])

/-! ## Consistency of the broker with the world -/

/-- The client objects an operation mentions. -/
def Event.clients : Event → List client.Client
  | .NewStreamableHttpClient _ _ (some c) => [c]
  | .NewStreamableHttpClient _ _ none => []
  | .Initialize c _ => [c]
  | .CallTool c _ => [c]
  | .Close c => [c]

/-- Every client object held in the session table or mentioned by an earlier
operation was created earlier: its identity is below the next one. -/
def Consistent (m : mcpAuthImpl) (w : World) : Prop :=
  (∀ kv ∈ m.serverSessions, kv.2.client.id < w.nextClient) ∧
    ∀ e ∈ w.log, ∀ c ∈ e.clients, c.id < w.nextClient

instance (m : mcpAuthImpl) (w : World) : Decidable (Consistent m w) := by
  unfold Consistent
  infer_instance

/-! ## Example inputs -/

/-- A configuration with required scope `admin`. -/
def exampleEnv : os.Environ :=
  [(lit "REQUIRED_SCOPE", lit "admin"),
   (lit "UPSTREAM_HEADER_TO_USE_IF_IN_AUDIENCE", lit "Bearer match-credential"),
   (lit "UPSTREAM_HEADER_TO_USE_IF_NOT_IN_AUDIENCE", lit "Bearer no-match-credential")]

/-- The claims of a token with scopes `email`, `admin` and `profile`. -/
def adminPayload : GoString := lit "\x7b\"scope\":\"email admin profile\"\x7d"

/-- The claims of a token whose only scope merely contains `admin`. -/
def administratorPayload : GoString := lit "\x7b\"scope\":\"administrator email\"\x7d"

/-- The claims of a token with no `scope` claim. -/
def noScopePayload : GoString := lit "\x7b\"sub\":\"caller-x\"\x7d"

/-- The token `h.<payload>.s`, its middle segment the standard base64
encoding of `payload`. -/
def tokenOf (payload : GoString) : GoString :=
  lit "h" ++ 46 :: (base64.EncodeToString payload ++ 46 :: lit "s")

/-- The inbound value `Bearer h.<payload>.s`. -/
def bearerOf (payload : GoString) : GoString :=
  lit "Bearer " ++ tokenOf payload

/-- An upstream that accepts every connection and answers every call, each
operation taking one unit of time. -/
def exampleUpstream : Upstream :=
  { newClientErr := fun _ _ _ => none
    initializeErr := fun _ _ => none
    sessionId := fun _ _ => lit "upstream-session"
    callTool := fun _ _ request => (some { Content := request.Name, IsError := false }, none)
    elapsed := fun _ => 1 }

/-- An upstream that refuses every connection. -/
def refusingUpstream : Upstream :=
  { exampleUpstream with newClientErr := fun _ _ _ => some (.library (lit "connection refused")) }

/-- An upstream that accepts every connection and rejects every handshake. -/
def rejectingUpstream : Upstream :=
  { exampleUpstream with initializeErr := fun _ _ => some (.library (lit "handshake rejected")) }

/-- A call of the tool `search` with an admin token. -/
def exampleRequest : mcp.CallToolRequest :=
  { Header := [(lit "Authorization", [bearerOf adminPayload]), (lit "Mcp-Session-Id", [lit "caller-a"])]
    Name := lit "search"
    Arguments := lit "\x7b\x7d" }

/-- A call of the tool `search` with a token that has no `scope` claim. -/
def noScopeRequest : mcp.CallToolRequest :=
  { Header :=
      [(lit "Authorization", [bearerOf noScopePayload]), (lit "Mcp-Session-Id", [lit "caller-x"])]
    Name := lit "search"
    Arguments := lit "\x7b\x7d" }

/-- The broker as `MakeMCPServer` builds it: an empty session table. -/
def exampleBroker : mcpAuthImpl :=
  { url := lit "https://upstream.example/mcp/"
    serverSessions := []
    tools := [{ Name := lit "search", Description := lit "", InputSchema := lit "\x7b\x7d" }] }

/-- The world before any operation. -/
def startWorld : World :=
  { nextClient := 0, log := [], now := 0 }

/-- A broker holding a session for `caller-a` whose last contact was at time 5. -/
def staleBroker : mcpAuthImpl :=
  { exampleBroker with
    serverSessions :=
      [(lit "caller-a",
        { initialized := true
          client := { id := 0, url := exampleBroker.url, options := [] }
          sessionID := lit "upstream-session"
          lastContact := 5 })] }

/-- A world at time 9 in which one client object exists. -/
def staleWorld : World :=
  { nextClient := 1, log := [], now := 9 }

/-- The claims of a token whose `scope` claim is a list, not a string. -/
def listScopePayload : GoString := lit "\x7b\"scope\":[\"admin\"]\x7d"

/-- The session that `noScopeRequest` opens in `startWorld`. -/
def noScopeSession : upstreamSessionState :=
  { initialized := true
    client := { id := 0, url := exampleBroker.url, options := [] }
    sessionID := lit "upstream-session"
    lastContact := 2 }

/-- An upstream that accepts every connection and fails every call. -/
def failingUpstream : Upstream :=
  { exampleUpstream with callTool := fun _ _ _ => (none, some (.library (lit "upstream error"))) }

/-- The broker after `caller-a` has closed its session. -/
def closedBroker : mcpAuthImpl :=
  (staleBroker.Close exampleUpstream staleWorld (lit "caller-a")).2.1

/-- The world after `caller-a` has closed its session. -/
def closedWorld : World :=
  (staleBroker.Close exampleUpstream staleWorld (lit "caller-a")).2.2

/-- The session that `exampleRequest` opens in `closedWorld`. -/
def reopenedSession : upstreamSessionState :=
  { initialized := true
    client :=
      { id := 1
        url := exampleBroker.url
        options :=
          [.WithHTTPHeaders [(lit "Authorization", lit "Bearer match-credential")],
           .WithHTTPHeaders [(lit "Authorization", lit "Bearer match-credential")]] }
    sessionID := lit "upstream-session"
    lastContact := 12 }

/-! ## The translator with Go's run-time checks -/

/-- The Go index expression `xs[i]`: the element, or the run-time panic
when `i` is out of range. -/
def goIndex {α : Type} (xs : List α) (i : Nat) : Except GoString α :=
  match xs[i]? with
  | some x => .ok x
  | none => .error (lit "index out of range")

/-- The lines of `getAuthorizationHeaderFromBearer` that fill `decodedToken`
(`upstream.go` lines 346-365), with the bounds check of `tokenParts[1]` made
explicit: the result is an error where Go panics. -/
def decodedTokenChecked (token : GoString) : Except GoString json.Map :=
  let tokenParts := strings.Split token 46
  if tokenParts.length = 3 then
    match goIndex tokenParts 1 with
    | .error p => .error p
    | .ok tokenPart =>
      match base64.DecodeString tokenPart with
      | none => .ok []
      | some decodedPart => .ok (json.Unmarshal decodedPart [])
  else .ok []

/-- The function `getAuthorizationHeaderFromBearer` of `upstream.go` with the
bounds check of `tokenParts[1]` made explicit: the result is an error where
Go panics.  The lookup in a nil map and the type assertion with `ok` do not
panic. -/
def getAuthorizationHeaderFromBearerChecked (env : os.Environ) (auth : GoString) :
    Except GoString GoString :=
  if !strings.HasPrefix auth (lit "Bearer ") then .ok (lit "")
  else
    let token := strings.TrimPrefix auth (lit "Bearer ")
    match decodedTokenChecked token with
    | .error p => .error p
    | .ok decodedToken =>
      match GoMap.get decodedToken (lit "scope") with
      | none => .ok (lit "")
      | some scopesObj =>
        match scopesObj with
        | .string scopesStr =>
          let scopes := strings.Split scopesStr 32
          let requiredScope := os.Getenv env (lit "REQUIRED_SCOPE")
          let scopeMatches := slices.Contains scopes requiredScope
          if scopeMatches then .ok (os.Getenv env (lit "UPSTREAM_HEADER_TO_USE_IF_IN_AUDIENCE"))
          else .ok (os.Getenv env (lit "UPSTREAM_HEADER_TO_USE_IF_NOT_IN_AUDIENCE"))
        | _ => .ok (lit "")

/-! ## Startup: `main.go` and `server.go` -/

namespace strconv

/-- Go `strconv.Atoi(s)`: the value of an optional sign followed by decimal
digits when it fits a 64-bit `int`; `none` when Go returns an error. -/
def Atoi (s : GoString) : Option Int :=
  let digits :=
    match s with
    | 45 :: t => t
    | 43 :: t => t
    | _ => s
  if digits = [] ∨ digits.all json.isDigit = false then none
  else
    let n : Int := digits.foldl (fun n ch => n * 10 + ((ch - 48 : Nat) : Int)) 0
    let v : Int := if s.head? = some 45 then -n else n
    if -9223372036854775808 ≤ v ∧ v ≤ 9223372036854775807 then some v else none

end strconv

/-- How a part of the startup path ends: it returns a value, the process exits
through `os.Exit(code)`, or it panics. -/
inductive Run (α : Type) where
  | ret (a : α)
  | exit (code : Int)
  | panic (msg : GoString)

/-- The exit status of the process, when the run ends the process: the code
given to `os.Exit`, and 2 for a panic (the Go run time). -/
def Run.exitStatus {α : Type} : Run α → Option Int
  | .ret _ => none
  | .exit code => some code
  | .panic _ => some 2

/-- What the protocol library and the upstream answer during startup; each of
these operations happens at most once. -/
structure StartupAnswers where
  newClientErr : Option error
  startErr : Option error
  initializeErr : Option error
  listTools : Except error (List mcp.Tool)

/-- The function `MakeUpstream` of `upstream.go`: the catalog client, the
first client object of the process.  The cancel function is dropped, and a
failing `SetLevel` is only logged. -/
def MakeUpstream (a : StartupAnswers) (mcpServerURL initAuthHeader : GoString) :
    Except error client.Client :=
  let options : List transport.StreamableHTTPCOption :=
    [.WithContinuousListening, .WithHTTPHeaders [(lit "Authorization", initAuthHeader)]]
  match a.newClientErr with
  | some err => .error (.ErrorfWrap (lit "failed to create client: %w") err)
  | none =>
    match a.startErr with
    | some err => .error (.ErrorfWrap (lit "failed to start streamable client %w") err)
    | none =>
      match a.initializeErr with
      | some err => .error (.ErrorfWrap (lit "initialization failed %w") err)
      | none => .ok { id := 0, url := mcpServerURL, options := options }

/-- The listening server that `MakeDownstream` builds; its address is
`fmt.Sprintf("%s:%d", listenAddr, listenPort)`. -/
structure Downstream where
  listenAddr : GoString
  listenPort : Int

/-- The function `MakeDownstream` of `server.go`: every path returns a nil
error. -/
def MakeDownstream (listenAddr : GoString) (listenPort : Int) : Except error Downstream :=
  .ok { listenAddr := listenAddr, listenPort := listenPort }

/-- The function `MakeMCPServer` of `server.go`. -/
def MakeMCPServer (a : StartupAnswers) (mcpServerURL initAuthHeader listenAddr : GoString)
    (listenPort : Int) : Run (Except error mcpAuthImpl) :=
  match MakeUpstream a mcpServerURL initAuthHeader with
  | .error _ => .exit 3
  | .ok _ =>
    match a.listTools with
    | .error _ => .exit 4
    | .ok resTools =>
      match MakeDownstream listenAddr listenPort with
      | .error err => .ret (.error err)
      | .ok _ => .ret (.ok { url := mcpServerURL, serverSessions := [], tools := resTools })

/-- The function `listenerHost` of `main.go`. -/
def listenerHost (env : os.Environ) : GoString :=
  let listenAddr := os.Getenv env (lit "LISTENER_HOST")
  if listenAddr ≠ lit "" then listenAddr else lit "0.0.0.0"

/-- The function `listenerPort` of `main.go`; the panic carries the format of
its message. -/
def listenerPort (env : os.Environ) : Run Int :=
  let listenPort := os.Getenv env (lit "LISTENER_PORT")
  if listenPort ≠ lit "" then
    match strconv.Atoi listenPort with
    | none => .panic (lit "$LISTENER_PORT must be a port number, got %q")
    | some port => .ret port
  else .ret 9090

/-- The gateway once startup is done: the broker and the tools registered
with the listening server. -/
structure Serving where
  mcpServer : mcpAuthImpl
  tools : List server.ServerTool

/-- The lines of `main` after the call of `MakeMCPServer` (`main.go` lines
32-38), reached with what that call returned: an error ends the process with
code 4, otherwise the listed tools are registered.  Serving and the ping loop
that follow do not end. -/
def mainServe (mcpServerURL : GoString) (r : Except error mcpAuthImpl) : Run Serving :=
  match r with
  | .error _ => .exit 4
  | .ok mcpServer =>
    match ToolsToServerTools (.mcpAuthImpl mcpServer) mcpServerURL mcpServer.Tools with
    | .error p => .panic p
    | .ok tools => .ret { mcpServer := mcpServer, tools := tools }

/-- The function `main` of `main.go` up to the start of serving, with the
process environment and the answers of the upstream as parameters.  The
arguments `listenerHost()` and `listenerPort()` are evaluated before
`MakeMCPServer` is called. -/
def main (env : os.Environ) (a : StartupAnswers) : Run Serving :=
  let mcpServerURL :=
    if os.Getenv env (lit "UPSTREAM_MCP") = lit "" then lit "https://api.githubcopilot.com/mcp/"
    else os.Getenv env (lit "UPSTREAM_MCP")
  let initAuthHeader := os.Getenv env (lit "INIT_AUTH_HEADER")
  if initAuthHeader = lit "" then .exit 1
  else
    match listenerPort env with
    | .panic p => .panic p
    | .exit code => .exit code
    | .ret port =>
      match MakeMCPServer a mcpServerURL initAuthHeader (listenerHost env) port with
      | .panic p => .panic p
      | .exit code => .exit code
      | .ret r => mainServe mcpServerURL r

/-! ## The fatal conditions of startup

The three conditions, as properties of a run of `main`, that is of the
environment and of the answers of the upstream. -/

/-- The run ends in "missing required credential environment value":
`INIT_AUTH_HEADER` is empty. -/
def MissingCredential (env : os.Environ) : Prop :=
  os.Getenv env (lit "INIT_AUTH_HEADER") = lit ""

/-- The run ends in "cannot list upstream tools": `main` calls
`MakeMCPServer`, `MakeUpstream` succeeds in it and its call of `ListTools`
fails. -/
def ListToolsFails (env : os.Environ) (a : StartupAnswers) : Prop :=
  os.Getenv env (lit "INIT_AUTH_HEADER") ≠ lit "" ∧
    (∃ port, listenerPort env = .ret port) ∧
    (∃ c, MakeUpstream a
      (if os.Getenv env (lit "UPSTREAM_MCP") = lit "" then lit "https://api.githubcopilot.com/mcp/"
        else os.Getenv env (lit "UPSTREAM_MCP"))
      (os.Getenv env (lit "INIT_AUTH_HEADER")) = .ok c) ∧
    ∃ e, a.listTools = .error e

/-- The run ends in "cannot build server": `main` calls `MakeMCPServer`, which
returns an error to it. -/
def ReturnsErrorToMain (env : os.Environ) (a : StartupAnswers) : Prop :=
  os.Getenv env (lit "INIT_AUTH_HEADER") ≠ lit "" ∧
    ∃ port e, listenerPort env = .ret port ∧
      MakeMCPServer a
        (if os.Getenv env (lit "UPSTREAM_MCP") = lit "" then
          lit "https://api.githubcopilot.com/mcp/"
        else os.Getenv env (lit "UPSTREAM_MCP"))
        (os.Getenv env (lit "INIT_AUTH_HEADER")) (listenerHost env) port = .ret (.error e)

/-! ## Example startups -/

/-- An environment with the startup credential set. -/
def startupEnv : os.Environ :=
  [(lit "INIT_AUTH_HEADER", lit "Bearer startup-token")]

/-- An upstream that answers every startup operation and lists one tool. -/
def startupAnswers : StartupAnswers :=
  { newClientErr := none
    startErr := none
    initializeErr := none
    listTools := .ok [{ Name := lit "search", Description := lit "", InputSchema := lit "\x7b\x7d" }] }

/-- An upstream whose tool listing fails. -/
def listToolsFailing : StartupAnswers :=
  { startupAnswers with listTools := .error (.library (lit "tools/list failed")) }

/-- An upstream that cannot be reached. -/
def unreachableAnswers : StartupAnswers :=
  { startupAnswers with newClientErr := some (.library (lit "connection refused")) }

/-! # Theorems -/

/-! ## Literals and the packages `strings` and `slices` -/

theorem lit_bearer : lit "Bearer " = [66, 101, 97, 114, 101, 114, 32] := by decide

theorem lit_empty : lit "" = [] := by decide

namespace strings

theorem HasPrefix_iff (s pre : GoString) : HasPrefix s pre = true ↔ pre <+: s := by
  simp [HasPrefix]

theorem TrimPrefix_append (pre s : GoString) : TrimPrefix (pre ++ s) pre = s := by
  simp [TrimPrefix, HasPrefix]

theorem Split_eq_splitOn (s : GoString) (sep : Nat) : Split s sep = s.splitOn sep := by
  induction s with
  | nil => simp [Split, List.splitOn]
  | cons c rest ih =>
    simp only [Split, List.splitOn, List.splitOnP_cons] at *
    rw [ih]
    by_cases h : c = sep
    · simp [h]
    · simp [h]
      cases hs : List.splitOnP (fun x => x == sep) rest with
      | nil => exact absurd hs (List.splitOnP_ne_nil _ _)
      | cons piece pieces => simp [List.modifyHead]

theorem Split_no_sep (s : GoString) (sep : Nat) (h : sep ∉ s) : Split s sep = [s] := by
  induction s with
  | nil => rfl
  | cons c rest ih =>
    have hc : c ≠ sep := fun e => h (by simp [e])
    have hr : sep ∉ rest := fun e => h (by simp [e])
    simp [Split, hc, ih hr]

theorem Split_append_sep (a rest : GoString) (sep : Nat) (h : sep ∉ a) :
    Split (a ++ sep :: rest) sep = a :: Split rest sep := by
  induction a with
  | nil => simp [Split]
  | cons c a ih =>
    have hc : c ≠ sep := fun e => h (by simp [e])
    have hr : sep ∉ a := fun e => h (by simp [e])
    simp [Split, hc, ih hr]

theorem Split_three (a b c : GoString) (sep : Nat) (ha : sep ∉ a) (hb : sep ∉ b)
    (hc : sep ∉ c) : Split (a ++ sep :: (b ++ sep :: c)) sep = [a, b, c] := by
  rw [Split_append_sep _ _ _ ha, Split_append_sep _ _ _ hb, Split_no_sep _ _ hc]

end strings

namespace slices

theorem Contains_iff (s : List GoString) (v : GoString) : Contains s v = true ↔ v ∈ s := by
  induction s with
  | nil => simp [Contains]
  | cons x rest ih =>
    simp only [Contains, Bool.or_eq_true, decide_eq_true_eq, ih, List.mem_cons]
    constructor
    · rintro (h | h)
      · exact Or.inl h.symm
      · exact Or.inr h
    · rintro (h | h)
      · exact Or.inl h.symm
      · exact Or.inr h

end slices

/-! ## Standard base64: round trip and rejected input -/

namespace base64

theorem decodeMap_encodeStd (v : Nat) (h : v < 64) : decodeMap (encodeStd v) = some v := by
  revert v
  decide

theorem dot_ne_encodeStd (v : Nat) : ¬ 46 = encodeStd v := by
  unfold encodeStd
  split_ifs <;> omega

theorem dot_not_mem_EncodeToString (src : GoString) : 46 ∉ EncodeToString src := by
  induction src using EncodeToString.induct with
  | case1 => simp [EncodeToString]
  | case2 a => simp [EncodeToString, dot_ne_encodeStd]
  | case3 a b => simp [EncodeToString, dot_ne_encodeStd]
  | case4 a b c rest ih =>
    simp only [EncodeToString, List.mem_cons, not_or]
    exact ⟨dot_ne_encodeStd _, dot_ne_encodeStd _, dot_ne_encodeStd _, dot_ne_encodeStd _, ih⟩

theorem decodeMap_pad : decodeMap 61 = none := by decide

theorem decodeLoop_quantum (a b c d : Nat) (ha : a < 64) (hb : b < 64) (hc : c < 64)
    (hd : d < 64) (rest : GoString) :
    decodeLoop [] (encodeStd a :: encodeStd b :: encodeStd c :: encodeStd d :: rest) =
      (decodeLoop [] rest).map fun out =>
        assemble a b c d / 65536 % 256 :: assemble a b c d / 256 % 256 ::
          assemble a b c d % 256 :: out := by
  simp [decodeLoop, decodeMap_encodeStd, ha, hb, hc, hd]

theorem DecodeString_EncodeToString (src : GoString) (hsrc : ∀ b ∈ src, b < 256) :
    DecodeString (EncodeToString src) = some src := by
  unfold DecodeString
  induction src using EncodeToString.induct with
  | case1 => simp [EncodeToString, decodeLoop]
  | case2 a =>
    have ha : a < 256 := hsrc a (by simp)
    have h0 : a * 65536 / 262144 % 64 < 64 := Nat.mod_lt _ (by decide)
    have h1 : a * 65536 / 4096 % 64 < 64 := Nat.mod_lt _ (by decide)
    simp [EncodeToString, decodeLoop, decodeMap_encodeStd, h0, h1, decodeMap_pad, isNewline,
      assemble]
    omega
  | case3 a b =>
    have ha : a < 256 := hsrc a (by simp)
    have hb : b < 256 := hsrc b (by simp)
    have h0 : (a * 65536 + b * 256) / 262144 % 64 < 64 := Nat.mod_lt _ (by decide)
    have h1 : (a * 65536 + b * 256) / 4096 % 64 < 64 := Nat.mod_lt _ (by decide)
    have h2 : (a * 65536 + b * 256) / 64 % 64 < 64 := Nat.mod_lt _ (by decide)
    simp [EncodeToString, decodeLoop, decodeMap_encodeStd, h0, h1, h2, decodeMap_pad, isNewline,
      assemble]
    omega
  | case4 a b c rest ih =>
    have ha : a < 256 := hsrc a (by simp)
    have hb : b < 256 := hsrc b (by simp)
    have hc : c < 256 := hsrc c (by simp)
    have hrest : ∀ x ∈ rest, x < 256 := fun x hx => hsrc x (by simp [hx])
    simp only [EncodeToString]
    rw [decodeLoop_quantum _ _ _ _ (Nat.mod_lt _ (by decide)) (Nat.mod_lt _ (by decide))
      (Nat.mod_lt _ (by decide)) (Nat.mod_lt _ (by decide)), ih hrest]
    simp only [assemble, Option.map_some', Option.some.injEq, List.cons.injEq, and_true]
    omega

theorem mem_dropWhile_isNewline (x : Nat) (src : GoString) (hn : isNewline x = false)
    (hx : x ∈ src) : x ∈ src.dropWhile isNewline := by
  induction src with
  | nil => simp at hx
  | cons y rest ih =>
    by_cases hy : isNewline y = true
    · have hne : x ≠ y := fun e => by simp [e, hy] at hn
      have hr : x ∈ rest := by
        rcases List.mem_cons.mp hx with h | h
        · exact absurd h hne
        · exact h
      simp only [List.dropWhile_cons, hy, if_true]
      exact ih hr
    · simp only [List.dropWhile_cons, hy]
      exact hx

theorem all_isNewline_false (x : Nat) (src : GoString) (hn : isNewline x = false)
    (hx : x ∈ src) : src.all isNewline = false := by
  rw [List.all_eq_false]
  exact ⟨x, hx, by simp [hn]⟩

theorem decodeLoop_cons (dbuf : List Nat) (x : Nat) (rest : GoString) :
    decodeLoop dbuf (x :: rest) =
      match decodeMap x with
      | some v =>
        match dbuf with
        | [a, b, c] =>
          (decodeLoop [] rest).map fun out =>
            assemble a b c v / 65536 % 256 :: assemble a b c v / 256 % 256 ::
              assemble a b c v % 256 :: out
        | _ => decodeLoop (dbuf ++ [v]) rest
      | none =>
        if isNewline x then decodeLoop dbuf rest
        else if x ≠ 61 then none
        else
          match dbuf with
          | [a, b] =>
            match rest.dropWhile isNewline with
            | 61 :: tail =>
              if tail.all isNewline then some [assemble a b 0 0 / 65536 % 256] else none
            | _ => none
          | [a, b, c] =>
            if rest.all isNewline then
              some [assemble a b c 0 / 65536 % 256, assemble a b c 0 / 256 % 256]
            else none
          | _ => none := by
  rfl

/-- A byte outside the standard alphabet that is neither a newline nor the
padding makes the whole input invalid, wherever it stands. -/
theorem decodeLoop_invalid_byte (x : Nat) (hm : decodeMap x = none) (hn : isNewline x = false)
    (hp : x ≠ 61) (src : GoString) (hx : x ∈ src) (dbuf : List Nat) :
    decodeLoop dbuf src = none := by
  induction src generalizing dbuf with
  | nil => simp at hx
  | cons y rest ih =>
    by_cases hxy : y = x
    · subst hxy
      rw [decodeLoop_cons]
      simp [hm, hn, hp]
    · have hr : x ∈ rest := by
        rcases List.mem_cons.mp hx with h | h
        · exact absurd h.symm hxy
        · exact h
      rw [decodeLoop_cons]
      cases hy : decodeMap y with
      | some v =>
        simp only
        split
        · simp [ih hr]
        · exact ih hr _
      | none =>
        simp only
        by_cases hny : isNewline y = true
        · rw [if_pos hny]
          exact ih hr _
        · rw [if_neg hny]
          by_cases hy61 : y = 61
          · rw [if_neg (not_not.mpr hy61)]
            have h2 : rest.all isNewline = false := all_isNewline_false x rest hn hr
            split
            · split
              · rename_i tail htail
                have hmem : x ∈ 61 :: tail := by
                  rw [← htail]
                  exact mem_dropWhile_isNewline x rest hn hr
                have htl : x ∈ tail := by
                  rcases List.mem_cons.mp hmem with h | h
                  · exact absurd h hp
                  · exact h
                rw [all_isNewline_false x tail hn htl]
                rfl
              · rfl
            · rw [h2]
              rfl
            · rfl
          · rw [if_pos hy61]

/-- The bytes `-` and `_` of the URL-safe alphabet are not accepted. -/
theorem DecodeString_urlsafe_byte (s : GoString) (h : 45 ∈ s ∨ 95 ∈ s) :
    DecodeString s = none := by
  rcases h with h | h
  · exact decodeLoop_invalid_byte 45 (by decide) (by decide) (by decide) s h []
  · exact decodeLoop_invalid_byte 95 (by decide) (by decide) (by decide) s h []

/-- Padding is required: `e30=` decodes to `{}`, and `e30` does not decode. -/
theorem DecodeString_padding :
    DecodeString (lit "e30=") = some (lit "\x7b\x7d") ∧ DecodeString (lit "e30") = none := by
  decide

end base64

/-! ## The credential translator -/

theorem decodedToken_of_parts (token a p c : GoString)
    (hsplit : strings.Split token 46 = [a, p, c]) :
    decodedToken token =
      match base64.DecodeString p with
      | none => []
      | some decodedPart => json.Unmarshal decodedPart [] := by
  simp [decodedToken, hsplit]

theorem decodedToken_not_three (token : GoString)
    (hsplit : (strings.Split token 46).length ≠ 3) : decodedToken token = [] := by
  simp [decodedToken, hsplit]

theorem getAuth_not_bearer (env : os.Environ) (auth : GoString)
    (h : ¬ lit "Bearer " <+: auth) : getAuthorizationHeaderFromBearer env auth = [] := by
  have : strings.HasPrefix auth (lit "Bearer ") = false := by
    rw [← Bool.not_eq_true, strings.HasPrefix_iff]
    exact h
  simp [getAuthorizationHeaderFromBearer, this, lit_empty]

theorem getAuth_bearer (env : os.Environ) (token : GoString) :
    getAuthorizationHeaderFromBearer env (lit "Bearer " ++ token) =
      match GoMap.get (decodedToken token) (lit "scope") with
      | some (.string scopesStr) =>
        if os.Getenv env (lit "REQUIRED_SCOPE") ∈ scopesStr.splitOn 32 then
          os.Getenv env (lit "UPSTREAM_HEADER_TO_USE_IF_IN_AUDIENCE")
        else os.Getenv env (lit "UPSTREAM_HEADER_TO_USE_IF_NOT_IN_AUDIENCE")
      | _ => [] := by
  have hp : strings.HasPrefix (lit "Bearer " ++ token) (lit "Bearer ") = true := by
    rw [strings.HasPrefix_iff]
    exact List.prefix_append _ _
  simp only [getAuthorizationHeaderFromBearer, hp, strings.TrimPrefix_append, lit_empty]
  cases hg : GoMap.get (decodedToken token) (lit "scope") with
  | none => simp
  | some v =>
    cases v <;> simp [← strings.Split_eq_splitOn, ← slices.Contains_iff]

theorem getAuth_no_string_scope (env : os.Environ) (token : GoString)
    (hscope : ∀ s, GoMap.get (decodedToken token) (lit "scope") ≠ some (.string s)) :
    getAuthorizationHeaderFromBearer env (lit "Bearer " ++ token) = lit "" := by
  rw [getAuth_bearer, lit_empty]
  cases hg : GoMap.get (decodedToken token) (lit "scope") with
  | none => rfl
  | some v =>
    cases v with
    | string s => exact absurd hg (hscope s)
    | _ => rfl

/-- C1: for an inbound value `Bearer h.p.s` whose middle segment `p` is the
standard base64 encoding of a JSON object with string-valued `scope` claim
`s`, the translator returns the configured match credential exactly when the
required scope equals one of the pieces of `s` split at every space, and the
configured no-match credential otherwise; with required scope `admin`, scope
`email admin profile` gives the match credential and `email profile` the
no-match credential. -/
theorem getAuthorizationHeaderFromBearer_scope_membership
    (env : os.Environ) (hdr payload sig s : GoString)
    (hhdr : 46 ∉ hdr) (hsig : 46 ∉ sig) (hbytes : ∀ b ∈ payload, b < 256)
    (hscope : GoMap.get (json.Unmarshal payload []) (lit "scope") = some (.string s)) :
    let r := os.Getenv env (lit "REQUIRED_SCOPE")
    let M := os.Getenv env (lit "UPSTREAM_HEADER_TO_USE_IF_IN_AUDIENCE")
    let N := os.Getenv env (lit "UPSTREAM_HEADER_TO_USE_IF_NOT_IN_AUDIENCE")
    let out := getAuthorizationHeaderFromBearer env
      (lit "Bearer " ++ (hdr ++ 46 :: (base64.EncodeToString payload ++ 46 :: sig)))
    (out = if r ∈ s.splitOn 32 then M else N) ∧
    (r = lit "admin" → s = lit "email admin profile" → out = M) ∧
    (r = lit "admin" → s = lit "email profile" → out = N) := by
  intro r M N out
  have hmain : out = if r ∈ s.splitOn 32 then M else N := by
    have hd : decodedToken (hdr ++ 46 :: (base64.EncodeToString payload ++ 46 :: sig)) =
        json.Unmarshal payload [] := by
      rw [decodedToken_of_parts _ _ _ _
        (strings.Split_three _ _ _ 46 hhdr (base64.dot_not_mem_EncodeToString payload) hsig),
        base64.DecodeString_EncodeToString payload hbytes]
    show getAuthorizationHeaderFromBearer env _ = _
    rw [getAuth_bearer, hd, hscope]
  refine ⟨hmain, ?_, ?_⟩
  · intro hr hs
    rw [hmain, hr, hs, if_pos (by decide)]
  · intro hr hs
    rw [hmain, hr, hs, if_neg (by decide)]

theorem getAuthorizationHeaderFromBearer_scope_membership_witness :
    getAuthorizationHeaderFromBearer exampleEnv
        (lit "Bearer " ++ (lit "h" ++ 46 :: (base64.EncodeToString adminPayload ++ 46 :: lit "s"))) =
      lit "Bearer match-credential" ∧
    getAuthorizationHeaderFromBearer exampleEnv
        (lit "Bearer " ++
          (lit "h" ++ 46 :: (base64.EncodeToString administratorPayload ++ 46 :: lit "s"))) =
      lit "Bearer no-match-credential" :=
  ⟨(getAuthorizationHeaderFromBearer_scope_membership exampleEnv (lit "h") adminPayload (lit "s")
      (lit "email admin profile") (by decide) (by decide) (by decide) rfl).2.1 (by decide) rfl,
    (getAuthorizationHeaderFromBearer_scope_membership exampleEnv (lit "h") administratorPayload
      (lit "s") (lit "administrator email") (by decide) (by decide) (by decide) rfl).1.trans
      (if_neg (by decide))⟩

/-- C3: an inbound value that does not start with `Bearer `, or whose token
does not split on `.` into exactly three segments, or whose middle segment is
not valid standard base64, or whose decoded bytes are not a JSON object, or
whose object has no string-valued `scope` claim, translates to the empty
string, whatever the configuration is. -/
theorem getAuthorizationHeaderFromBearer_malformed_empty (env : os.Environ) :
    (∀ auth, ¬ lit "Bearer " <+: auth → getAuthorizationHeaderFromBearer env auth = lit "") ∧
    (∀ token, (token.splitOn 46).length ≠ 3 →
      getAuthorizationHeaderFromBearer env (lit "Bearer " ++ token) = lit "") ∧
    (∀ token a p c, token.splitOn 46 = [a, p, c] → base64.DecodeString p = none →
      getAuthorizationHeaderFromBearer env (lit "Bearer " ++ token) = lit "") ∧
    (∀ token a p c decodedPart, token.splitOn 46 = [a, p, c] →
      base64.DecodeString p = some decodedPart →
      (∀ members, json.parse decodedPart ≠ some (.object members)) →
      getAuthorizationHeaderFromBearer env (lit "Bearer " ++ token) = lit "") ∧
    (∀ token a p c decodedPart, token.splitOn 46 = [a, p, c] →
      base64.DecodeString p = some decodedPart →
      (∀ s, GoMap.get (json.Unmarshal decodedPart []) (lit "scope") ≠ some (.string s)) →
      getAuthorizationHeaderFromBearer env (lit "Bearer " ++ token) = lit "") := by
  refine ⟨?_, ?_, ?_, ?_, ?_⟩
  · intro auth h
    rw [getAuth_not_bearer env auth h, lit_empty]
  · intro token h
    rw [← strings.Split_eq_splitOn] at h
    rw [getAuth_bearer, decodedToken_not_three token h, lit_empty]
    rfl
  · intro token a p c hsplit hdec
    rw [← strings.Split_eq_splitOn] at hsplit
    rw [getAuth_bearer, decodedToken_of_parts token a p c hsplit, hdec, lit_empty]
    rfl
  · intro token a p c decodedPart hsplit hdec hobj
    rw [← strings.Split_eq_splitOn] at hsplit
    have hu : json.Unmarshal decodedPart [] = [] := by
      unfold json.Unmarshal
      cases hp : json.parse decodedPart with
      | none => rfl
      | some v =>
        cases v with
        | object members => exact absurd hp (hobj members)
        | _ => rfl
    rw [getAuth_bearer, decodedToken_of_parts token a p c hsplit, hdec, lit_empty]
    simp only [hu]
    rfl
  · intro token a p c decodedPart hsplit hdec hscope
    rw [← strings.Split_eq_splitOn] at hsplit
    apply getAuth_no_string_scope
    rw [decodedToken_of_parts token a p c hsplit, hdec]
    exact hscope

theorem getAuthorizationHeaderFromBearer_malformed_empty_witness :
    getAuthorizationHeaderFromBearer exampleEnv (lit "Basic dXNlcjpwdw==") = lit "" ∧
    getAuthorizationHeaderFromBearer exampleEnv (lit "Bearer " ++ lit "only.two") = lit "" ∧
    getAuthorizationHeaderFromBearer exampleEnv (lit "Bearer " ++ lit "h.e30.s") = lit "" ∧
    getAuthorizationHeaderFromBearer exampleEnv (lit "Bearer " ++ lit "h.WzFd.s") = lit "" ∧
    getAuthorizationHeaderFromBearer exampleEnv
      (lit "Bearer " ++ (lit "h." ++ (base64.EncodeToString listScopePayload ++ lit ".s"))) =
        lit "" :=
  ⟨(getAuthorizationHeaderFromBearer_malformed_empty exampleEnv).1 _ (by decide),
    (getAuthorizationHeaderFromBearer_malformed_empty exampleEnv).2.1 _ (by decide),
    (getAuthorizationHeaderFromBearer_malformed_empty exampleEnv).2.2.1 _ (lit "h") (lit "e30")
      (lit "s") (by decide) (by decide),
    (getAuthorizationHeaderFromBearer_malformed_empty exampleEnv).2.2.2.1 _ (lit "h") (lit "WzFd")
      (lit "s") (lit "[1]") (by decide) (by decide) (by
        intro members h
        have h2 : (match json.parse (lit "[1]") with
            | some (.object _) => true
            | _ => false) = false := by decide
        rw [h] at h2
        cases h2),
    (getAuthorizationHeaderFromBearer_malformed_empty exampleEnv).2.2.2.2 _ (lit "h")
      (base64.EncodeToString listScopePayload) (lit "s") listScopePayload (by decide) (by decide) (by
        intro s h
        have h2 : (match GoMap.get (json.Unmarshal listScopePayload []) (lit "scope") with
            | some (.string _) => true
            | _ => false) = false := by decide
        rw [h] at h2
        cases h2)⟩

/-! ## Go maps -/

theorem GoMap.get_set {α : Type} (m : GoMap α) (k k' : GoString) (v : α) :
    GoMap.get (GoMap.set m k v) k' = if k' = k then some v else GoMap.get m k' := by
  induction m with
  | nil =>
    by_cases h : k = k'
    · simp [GoMap.set, GoMap.get, h]
    · simp [GoMap.set, GoMap.get, h, Ne.symm h]
  | cons kv rest ih =>
    obtain ⟨k0, v0⟩ := kv
    by_cases h0 : k0 = k
    · subst h0
      by_cases h : k0 = k'
      · simp [GoMap.set, GoMap.get, h]
      · simp [GoMap.set, GoMap.get, h, Ne.symm h]
    · by_cases h : k0 = k'
      · subst h
        simp [GoMap.set, GoMap.get, h0]
      · simp [GoMap.set, GoMap.get, h0, h, ih]

theorem GoMap.get_delete {α : Type} (m : GoMap α) (k k' : GoString) :
    GoMap.get (GoMap.delete m k) k' = if k' = k then none else GoMap.get m k' := by
  induction m with
  | nil => simp [GoMap.delete, GoMap.get]
  | cons kv rest ih =>
    obtain ⟨k0, v0⟩ := kv
    by_cases h0 : k0 = k
    · subst h0
      by_cases h : k' = k0
      · subst h
        simpa [GoMap.delete, GoMap.get] using ih
      · simp [GoMap.delete, GoMap.get, ih, h, Ne.symm h]
    · by_cases h : k0 = k'
      · subst h
        simp [GoMap.delete, GoMap.get, h0]
      · simp [GoMap.delete, GoMap.get, h0, h, ih]

theorem GoMap.mem_of_get {α : Type} (m : GoMap α) (k : GoString) (v : α)
    (h : GoMap.get m k = some v) : (k, v) ∈ m := by
  induction m with
  | nil => simp [GoMap.get] at h
  | cons kv rest ih =>
    obtain ⟨k0, v0⟩ := kv
    by_cases h0 : k0 = k
    · simp [GoMap.get, h0] at h
      simp [h0, h]
    · simp [GoMap.get, h0] at h
      exact List.mem_cons_of_mem _ (ih h)

theorem GoMap.mem_set {α : Type} (m : GoMap α) (k : GoString) (v : α) (kv : GoString × α)
    (h : kv ∈ GoMap.set m k v) : kv = (k, v) ∨ kv ∈ m := by
  induction m with
  | nil =>
    simp [GoMap.set] at h
    exact Or.inl h
  | cons kv0 rest ih =>
    obtain ⟨k0, v0⟩ := kv0
    by_cases h0 : k0 = k
    · simp [GoMap.set, h0] at h
      rcases h with h | h
      · exact Or.inl h
      · exact Or.inr (List.mem_cons_of_mem _ h)
    · simp [GoMap.set, h0] at h
      rcases h with h | h
      · exact Or.inr (by simp [h])
      · rcases ih h with h | h
        · exact Or.inl h
        · exact Or.inr (List.mem_cons_of_mem _ h)

theorem GoMap.mem_delete {α : Type} (m : GoMap α) (k : GoString) (kv : GoString × α)
    (h : kv ∈ GoMap.delete m k) : kv ∈ m := by
  induction m with
  | nil => simp [GoMap.delete] at h
  | cons kv0 rest ih =>
    obtain ⟨k0, v0⟩ := kv0
    by_cases h0 : k0 = k
    · simp [GoMap.delete, h0] at h
      exact List.mem_cons_of_mem _ (ih h)
    · simp [GoMap.delete, h0] at h
      rcases h with h | h
      · simp [h]
      · exact List.mem_cons_of_mem _ (ih h)

/-- Replacing the session held under a key by one with the same client keeps
the keys and the client of every key. -/
theorem GoMap.set_same_client (m : GoMap upstreamSessionState) (k : GoString)
    (s s' : upstreamSessionState) (hget : GoMap.get m k = some s) (hc : s'.client = s.client) :
    (GoMap.set m k s').map (fun kv => (kv.1, kv.2.client)) =
      m.map (fun kv => (kv.1, kv.2.client)) := by
  induction m with
  | nil => simp [GoMap.get] at hget
  | cons kv0 rest ih =>
    obtain ⟨k0, v0⟩ := kv0
    by_cases h0 : k0 = k
    · simp [GoMap.get, h0] at hget
      simp [GoMap.set, h0, hget, hc]
    · simp [GoMap.get, h0] at hget
      simp [GoMap.set, h0, ih hget]

/-! ## The session broker: `CallTool` -/

theorem forward_eq (up : Upstream) (m : mcpAuthImpl) (w : World) (k : downstreamSessionID)
    (s : upstreamSessionState) (request : mcp.CallToolRequest) :
    m.forward up w k s request =
      (up.callTool w s.client request,
        (if (up.callTool w s.client request).2 ≠ none then
          { m with
            serverSessions :=
              GoMap.set m.serverSessions k
                { s with lastContact := (w.record up (.CallTool s.client request)).now } }
        else m),
        w.record up (.CallTool s.client request)) := by
  rfl

/-- The forwarding step sets `lastContact` only when the forwarded call
returns an error; a successful call leaves the broker as it was. -/
theorem forward_lastContact (up : Upstream) (m : mcpAuthImpl) (w : World)
    (k : downstreamSessionID) (s : upstreamSessionState) (request : mcp.CallToolRequest) :
    ((up.callTool w s.client request).2 = none → (m.forward up w k s request).2.1 = m) ∧
    ((up.callTool w s.client request).2 ≠ none →
      (GoMap.get (m.forward up w k s request).2.1.serverSessions k).map (fun s => s.lastContact) =
        some (m.forward up w k s request).2.2.Now) := by
  rw [forward_eq]
  constructor
  · intro h
    simp [h]
  · intro h
    simp [h, GoMap.get_set, World.Now]

/-- A successful `createUpstreamSession` has created exactly one client, with
the translated credential appended to the options, and initialized it. -/
theorem createUpstreamSession_ok (up : Upstream) (env : os.Environ) (m : mcpAuthImpl)
    (w : World) (auth : GoString) (options : List transport.StreamableHTTPCOption)
    (s : upstreamSessionState) (w1 : World)
    (h : m.createUpstreamSession up env w auth options = (.ok s, w1)) :
    s.client =
      { id := w.nextClient
        url := m.url
        options :=
          if getAuthorizationHeaderFromBearer env auth ≠ lit "" then
            options ++
              [.WithHTTPHeaders [(lit "Authorization", getAuthorizationHeaderFromBearer env auth)]]
          else options } ∧
    s.initialized = true ∧
    w1.log = w.log ++
      [.NewStreamableHttpClient m.url s.client.options (some s.client),
        .Initialize s.client none] ∧
    w1.nextClient = w.nextClient + 1 := by
  simp only [mcpAuthImpl.createUpstreamSession, mcpAuthImpl.createMCPClient,
    client.NewStreamableHttpClient, client.Client.Initialize] at h
  split at h
  · simp at h
  · rename_i c w' hc
    split at hc
    · simp at hc
    · rename_i c' w'' hc'
      split at hc'
      · simp at hc'
      · split at hc
        · simp at hc
        · rename_i w2 hinit
          simp only [Prod.mk.injEq, Except.ok.injEq] at hc' hc h hinit
          obtain ⟨rfl, rfl⟩ := hc'
          obtain ⟨rfl, rfl⟩ := hc
          obtain ⟨rfl, rfl⟩ := h
          obtain ⟨hi, rfl⟩ := hinit
          simpa [World.record] using hi

theorem CallTool_absent_ok (up : Upstream) (env : os.Environ) (m : mcpAuthImpl) (w : World)
    (k : downstreamSessionID) (request : mcp.CallToolRequest)
    (habsent : GoMap.get m.serverSessions k = none) (s : upstreamSessionState) (w1 : World)
    (hopen : m.openSession up env w request = (.ok s, w1)) :
    m.CallTool up env w k request =
      mcpAuthImpl.forward up { m with serverSessions := GoMap.set m.serverSessions k s } w1 k s
        request := by
  simp only [mcpAuthImpl.CallTool, habsent, hopen]

theorem CallTool_absent_error (up : Upstream) (env : os.Environ) (m : mcpAuthImpl) (w : World)
    (k : downstreamSessionID) (request : mcp.CallToolRequest)
    (habsent : GoMap.get m.serverSessions k = none) (e : error) (w1 : World)
    (hfail : m.openSession up env w request = (.error e, w1)) :
    m.CallTool up env w k request =
      ((none, some (.ErrorfWrap (lit "could not open upstream: %w") e)), m, w1) := by
  simp only [mcpAuthImpl.CallTool, habsent, hfail]

theorem CallTool_present (up : Upstream) (env : os.Environ) (m : mcpAuthImpl) (w : World)
    (k : downstreamSessionID) (request : mcp.CallToolRequest) (s : upstreamSessionState)
    (hpresent : GoMap.get m.serverSessions k = some s) :
    m.CallTool up env w k request = m.forward up w k s request := by
  simp only [mcpAuthImpl.CallTool, hpresent]

theorem headers_of_translated (cred : GoString) :
    transport.headers
      (if cred ≠ lit "" then
        (if cred ≠ lit "" then [.WithHTTPHeaders [(lit "Authorization", cred)]] else []) ++
          [.WithHTTPHeaders [(lit "Authorization", cred)]]
      else (if cred ≠ lit "" then [.WithHTTPHeaders [(lit "Authorization", cred)]] else [])) =
      if cred = lit "" then [] else [(lit "Authorization", cred)] := by
  by_cases h : cred = lit ""
  · simp [h, transport.headers]
  · simp [h, transport.headers]

/-- C4: when the caller ID is absent from the session table and opening the
upstream connection succeeds, `CallTool` creates exactly one client, for the
broker's URL, whose only header is `Authorization` with the translation of the
request's Authorization header (the header option is passed twice), and which
has no option and no header at all when that translation is empty; it
initializes that client, forwards the call on it, stores it under
the caller ID and leaves every other table entry unchanged.  The client is a
new object: in a consistent state no earlier operation, in particular no
`Close`, mentions it and no table entry holds it. -/
theorem CallTool_absent_opens_connection (up : Upstream) (env : os.Environ) (m : mcpAuthImpl)
    (w : World) (k : downstreamSessionID) (request : mcp.CallToolRequest)
    (habsent : GoMap.get m.serverSessions k = none) (s : upstreamSessionState) (w1 : World)
    (hopen : m.openSession up env w request = (.ok s, w1)) :
    (m.CallTool up env w k request).2.2.log = w.log ++
      [.NewStreamableHttpClient m.url s.client.options (some s.client),
        .Initialize s.client none, .CallTool s.client request] ∧
    s.client.url = m.url ∧
    s.client.options =
      (if getAuthorizationHeaderFromBearer env (request.Header.Get (lit "Authorization")) = lit ""
        then []
        else [.WithHTTPHeaders [(lit "Authorization",
            getAuthorizationHeaderFromBearer env (request.Header.Get (lit "Authorization")))],
          .WithHTTPHeaders [(lit "Authorization",
            getAuthorizationHeaderFromBearer env (request.Header.Get (lit "Authorization")))]]) ∧
    transport.headers s.client.options =
      (if getAuthorizationHeaderFromBearer env (request.Header.Get (lit "Authorization")) = lit ""
        then []
        else [(lit "Authorization",
          getAuthorizationHeaderFromBearer env (request.Header.Get (lit "Authorization")))]) ∧
    (∃ s', GoMap.get (m.CallTool up env w k request).2.1.serverSessions k = some s' ∧
      s'.client = s.client ∧ s'.initialized = true) ∧
    (∀ k', k' ≠ k → GoMap.get (m.CallTool up env w k request).2.1.serverSessions k' =
      GoMap.get m.serverSessions k') ∧
    s.client.id = w.nextClient ∧
    (Consistent m w →
      (∀ e ∈ w.log, s.client ∉ e.clients) ∧ ∀ kv ∈ m.serverSessions, kv.2.client ≠ s.client) := by
  obtain ⟨hclient, hinit, hlog, _⟩ := createUpstreamSession_ok up env m w _ _ s w1 hopen
  rw [CallTool_absent_ok up env m w k request habsent s w1 hopen, forward_eq]
  have hid : s.client.id = w.nextClient := by rw [hclient]
  refine ⟨?_, ?_, ?_, ?_, ?_, ?_, hid, ?_⟩
  · simp [World.record, hlog]
  · rw [hclient]
  · rw [hclient]
    by_cases hcred :
        getAuthorizationHeaderFromBearer env (request.Header.Get (lit "Authorization")) = lit ""
    · simp [hcred]
    · simp [hcred]
  · rw [hclient]
    exact headers_of_translated _
  · by_cases herr : (up.callTool w1 s.client request).2 = none
    · refine ⟨s, ?_, rfl, hinit⟩
      simp [herr, GoMap.get_set]
    · refine ⟨{ s with lastContact := (w1.record up (.CallTool s.client request)).now }, ?_, rfl,
        hinit⟩
      simp [herr, GoMap.get_set]
  · intro k' hk'
    by_cases herr : (up.callTool w1 s.client request).2 = none
    · simp [herr, GoMap.get_set, hk']
    · simp [herr, GoMap.get_set, hk']
  · rintro ⟨htable, hlogc⟩
    constructor
    · intro e he hmem
      have := hlogc e he _ hmem
      omega
    · intro kv hkv heq
      have := htable kv hkv
      rw [heq] at this
      omega

theorem CallTool_absent_opens_connection_witness :
    Consistent closedBroker closedWorld ∧
    closedWorld.log = [.Close { id := 0, url := exampleBroker.url, options := [] }] ∧
    (closedBroker.CallTool exampleUpstream exampleEnv closedWorld (lit "caller-a")
        exampleRequest).2.2.log = closedWorld.log ++
      [.NewStreamableHttpClient exampleBroker.url reopenedSession.client.options
          (some reopenedSession.client),
        .Initialize reopenedSession.client none, .CallTool reopenedSession.client exampleRequest] ∧
    transport.headers reopenedSession.client.options =
      [(lit "Authorization", lit "Bearer match-credential")] ∧
    ∀ e ∈ closedWorld.log, reopenedSession.client ∉ e.clients := by
  have h := CallTool_absent_opens_connection exampleUpstream exampleEnv closedBroker closedWorld
    (lit "caller-a") exampleRequest (by decide) reopenedSession
    (closedBroker.openSession exampleUpstream exampleEnv closedWorld exampleRequest).2
    rfl
  exact ⟨by decide, by decide, h.1, by decide, (h.2.2.2.2.2.2.2 (by decide)).1⟩

/-- C2 (as stated, refuted): the token `h.<{"sub":"caller-x"}>.s` has no
`scope` claim, and with a non-empty no-match credential configured the
translator returns the empty string, not that credential; the call of a new
caller with that token is forwarded on a client built with no options, hence
without an Authorization header. -/
theorem getAuthorizationHeaderFromBearer_no_scope_counterexample :
    (GoMap.get (decodedToken (tokenOf noScopePayload)) (lit "scope")).isNone = true ∧
      os.Getenv exampleEnv (lit "UPSTREAM_HEADER_TO_USE_IF_NOT_IN_AUDIENCE") =
        lit "Bearer no-match-credential" ∧
      getAuthorizationHeaderFromBearer exampleEnv (lit "Bearer " ++ tokenOf noScopePayload) =
        lit "" ∧
      getAuthorizationHeaderFromBearer exampleEnv (lit "Bearer " ++ tokenOf noScopePayload) ≠
        os.Getenv exampleEnv (lit "UPSTREAM_HEADER_TO_USE_IF_NOT_IN_AUDIENCE") ∧
      (exampleBroker.CallTool exampleUpstream exampleEnv startWorld (lit "caller-x")
          noScopeRequest).2.2.log =
        [.NewStreamableHttpClient exampleBroker.url []
            (some { id := 0, url := exampleBroker.url, options := [] }),
          .Initialize { id := 0, url := exampleBroker.url, options := [] } none,
          .CallTool { id := 0, url := exampleBroker.url, options := [] } noScopeRequest] := by
  decide

/-- C2 (amended): for every inbound value `Bearer <token>` whose decoded claim
set has no `scope` claim, or a `scope` claim that is not a string, the
translator returns the empty string, whatever the configuration is: no
outbound credential, rather than the if-not-matches credential.  So the
session that `CallTool` opens for a request with that inbound value has a
client built with no options, hence without an Authorization header. -/
theorem getAuthorizationHeaderFromBearer_no_scope_empty
    (env : os.Environ) (token : GoString)
    (hscope : ∀ s, GoMap.get (decodedToken token) (lit "scope") ≠ some (.string s)) :
    getAuthorizationHeaderFromBearer env (lit "Bearer " ++ token) = lit "" ∧
    ∀ (up : Upstream) (m : mcpAuthImpl) (w : World) (request : mcp.CallToolRequest)
      (s : upstreamSessionState) (w1 : World),
      request.Header.Get (lit "Authorization") = lit "Bearer " ++ token →
      m.openSession up env w request = (.ok s, w1) →
      s.client.options = [] ∧ transport.headers s.client.options = [] := by
  have hempty := getAuth_no_string_scope env token hscope
  refine ⟨hempty, ?_⟩
  intro up m w request s w1 hreq hopen
  obtain ⟨hclient, _, _, _⟩ := createUpstreamSession_ok up env m w _ _ s w1 hopen
  rw [hreq, hempty] at hclient
  have hopts : s.client.options = [] := by
    rw [hclient]
    simp
  rw [hopts]
  exact ⟨rfl, rfl⟩

theorem getAuthorizationHeaderFromBearer_no_scope_empty_witness :
    getAuthorizationHeaderFromBearer exampleEnv (lit "Bearer " ++ tokenOf noScopePayload) = lit "" ∧
    getAuthorizationHeaderFromBearer exampleEnv (lit "Bearer " ++ tokenOf listScopePayload) =
      lit "" ∧
    (exampleBroker.openSession exampleUpstream exampleEnv startWorld noScopeRequest).1 =
      .ok noScopeSession ∧
    noScopeSession.client.options = [] ∧ transport.headers noScopeSession.client.options = [] :=
  ⟨(getAuthorizationHeaderFromBearer_no_scope_empty exampleEnv _ (by
      have h : GoMap.get (decodedToken (tokenOf noScopePayload)) (lit "scope") = none :=
        Option.isNone_iff_eq_none.mp (by decide)
      intro s
      rw [h]
      exact Option.noConfusion)).1,
    (getAuthorizationHeaderFromBearer_no_scope_empty exampleEnv _ (by
      intro s h
      have h2 : (match GoMap.get (decodedToken (tokenOf listScopePayload)) (lit "scope") with
          | some (.string _) => true
          | _ => false) = false := by decide
      rw [h] at h2
      cases h2)).1,
    rfl,
    (getAuthorizationHeaderFromBearer_no_scope_empty exampleEnv (tokenOf noScopePayload) (by
      have h : GoMap.get (decodedToken (tokenOf noScopePayload)) (lit "scope") = none :=
        Option.isNone_iff_eq_none.mp (by decide)
      intro s
      rw [h]
      exact Option.noConfusion)).2 exampleUpstream exampleBroker startWorld noScopeRequest
      noScopeSession
      (exampleBroker.openSession exampleUpstream exampleEnv startWorld noScopeRequest).2
      (by decide) rfl⟩

/-- C5: when the caller ID is absent from the session table and opening the
upstream connection fails, `CallTool` returns no result and an error wrapping
the failure, and the broker, hence the session table, is as before. -/
theorem CallTool_open_failure_keeps_table (up : Upstream) (env : os.Environ) (m : mcpAuthImpl)
    (w : World) (k : downstreamSessionID) (request : mcp.CallToolRequest)
    (habsent : GoMap.get m.serverSessions k = none) (e : error) (w1 : World)
    (hfail : m.openSession up env w request = (.error e, w1)) :
    m.CallTool up env w k request =
      ((none, some (.ErrorfWrap (lit "could not open upstream: %w") e)), m, w1) :=
  CallTool_absent_error up env m w k request habsent e w1 hfail

theorem CallTool_open_failure_keeps_table_witness :
    (exampleBroker.CallTool refusingUpstream exampleEnv startWorld (lit "caller-a")
        exampleRequest).1 =
      (none, some (.ErrorfWrap (lit "could not open upstream: %w")
        (.ErrorfWrap (lit "failed to create client: %w") (.library (lit "connection refused"))))) ∧
    (exampleBroker.CallTool refusingUpstream exampleEnv startWorld (lit "caller-a")
        exampleRequest).2.1 = exampleBroker ∧
    (exampleBroker.CallTool rejectingUpstream exampleEnv startWorld (lit "caller-a")
        exampleRequest).1 =
      (none, some (.ErrorfWrap (lit "could not open upstream: %w")
        (.ErrorfWrap (lit "initialization failed: %w") (.library (lit "handshake rejected"))))) ∧
    (exampleBroker.CallTool rejectingUpstream exampleEnv startWorld (lit "caller-a")
        exampleRequest).2.1 = exampleBroker := by
  have h := CallTool_open_failure_keeps_table refusingUpstream exampleEnv exampleBroker startWorld
    (lit "caller-a") exampleRequest (by decide)
    (.ErrorfWrap (lit "failed to create client: %w") (.library (lit "connection refused")))
    (exampleBroker.openSession refusingUpstream exampleEnv startWorld exampleRequest).2
    rfl
  have h2 := CallTool_open_failure_keeps_table rejectingUpstream exampleEnv exampleBroker
    startWorld (lit "caller-a") exampleRequest (by decide)
    (.ErrorfWrap (lit "initialization failed: %w") (.library (lit "handshake rejected")))
    (exampleBroker.openSession rejectingUpstream exampleEnv startWorld exampleRequest).2
    rfl
  rw [h, h2]
  exact ⟨rfl, rfl, rfl, rfl⟩

/-- C6: when the caller ID is a key of the session table, `CallTool` performs
exactly one operation on the library, the forwarded call on the client stored
for that ID, whatever the request and its Authorization header are; no
client is created, the call's result and error are returned as they are, and
the keys of the table and the client held under each key are unchanged. -/
theorem CallTool_present_reuses_connection (up : Upstream) (env : os.Environ) (m : mcpAuthImpl)
    (w : World) (k : downstreamSessionID) (request : mcp.CallToolRequest)
    (s : upstreamSessionState) (hpresent : GoMap.get m.serverSessions k = some s) :
    (m.CallTool up env w k request).2.2.log = w.log ++ [.CallTool s.client request] ∧
    (m.CallTool up env w k request).2.2.nextClient = w.nextClient ∧
    (m.CallTool up env w k request).1 = up.callTool w s.client request ∧
    (m.CallTool up env w k request).2.1.serverSessions.map (fun kv => (kv.1, kv.2.client)) =
      m.serverSessions.map (fun kv => (kv.1, kv.2.client)) := by
  rw [CallTool_present up env m w k request s hpresent, forward_eq]
  refine ⟨rfl, rfl, rfl, ?_⟩
  by_cases herr : (up.callTool w s.client request).2 = none
  · simp [herr]
  · simp only [ne_eq, herr, not_false_eq_true, if_true]
    exact GoMap.set_same_client _ _ _ _ hpresent rfl

theorem CallTool_present_reuses_connection_witness :
    (staleBroker.CallTool exampleUpstream exampleEnv staleWorld (lit "caller-a")
        exampleRequest).2.2.log =
      [.CallTool { id := 0, url := exampleBroker.url, options := [] } exampleRequest] ∧
    (staleBroker.CallTool exampleUpstream exampleEnv staleWorld (lit "caller-a")
        exampleRequest).2.2.nextClient = 1 ∧
    (staleBroker.CallTool exampleUpstream exampleEnv staleWorld (lit "caller-a")
        exampleRequest).1 = (some { Content := lit "search", IsError := false }, none) ∧
    (staleBroker.CallTool exampleUpstream exampleEnv staleWorld (lit "caller-a")
        exampleRequest).2.1.serverSessions.map (fun kv => (kv.1, kv.2.client)) =
      [(lit "caller-a", { id := 0, url := exampleBroker.url, options := [] })] :=
  CallTool_present_reuses_connection exampleUpstream exampleEnv staleBroker staleWorld
    (lit "caller-a") exampleRequest
    { initialized := true
      client := { id := 0, url := exampleBroker.url, options := [] }
      sessionID := lit "upstream-session"
      lastContact := 5 }
    (by decide)

/-- C7 (code defect shown): a session for `caller-a` was last contacted at
time 5; a call at time 9 is forwarded over it and succeeds at time 10, and
afterwards the session's `lastContact` is still 5, not the time of the
attempt.  When the same call fails, `lastContact` becomes 10. -/
theorem CallTool_success_leaves_lastContact :
    staleWorld.Now = 9 ∧
    (staleBroker.CallTool exampleUpstream exampleEnv staleWorld (lit "caller-a")
        exampleRequest).1 = (some { Content := lit "search", IsError := false }, none) ∧
    (staleBroker.CallTool exampleUpstream exampleEnv staleWorld (lit "caller-a")
        exampleRequest).2.2.Now = 10 ∧
    (GoMap.get (staleBroker.CallTool exampleUpstream exampleEnv staleWorld (lit "caller-a")
        exampleRequest).2.1.serverSessions (lit "caller-a")).map (fun s => s.lastContact) =
      some 5 ∧
    (staleBroker.CallTool failingUpstream exampleEnv staleWorld (lit "caller-a")
        exampleRequest).1 = (none, some (.library (lit "upstream error"))) ∧
    (GoMap.get (staleBroker.CallTool failingUpstream exampleEnv staleWorld (lit "caller-a")
        exampleRequest).2.1.serverSessions (lit "caller-a")).map (fun s => s.lastContact) =
      some 10 := by
  decide

/-! ## The session broker: `Close` -/

/-- C8: `Close` for a caller ID that is not a key of the session table returns
the `unknown session` error and leaves the broker, hence the session table,
and the world as they were. -/
theorem Close_unknown_session (up : Upstream) (m : mcpAuthImpl) (w : World)
    (k : downstreamSessionID) (habsent : GoMap.get m.serverSessions k = none) :
    m.Close up w k = (some (.ErrorfString (lit "unknown session %q") k), m, w) := by
  simp [mcpAuthImpl.Close, habsent]

theorem Close_unknown_session_witness :
    exampleBroker.Close exampleUpstream startWorld (lit "caller-a") =
      (some (.ErrorfString (lit "unknown session %q") (lit "caller-a")), exampleBroker,
        startWorld) :=
  Close_unknown_session exampleUpstream exampleBroker startWorld (lit "caller-a") (by decide)

/-- C9: `Close` for a caller ID that is a key of the session table returns no
error, closes the client stored for it, and leaves the table with exactly
that key removed and every other entry unchanged; a second `Close` for the
same ID right after it returns the `unknown session` error. -/
theorem Close_removes_session (up : Upstream) (m : mcpAuthImpl) (w : World)
    (k : downstreamSessionID) (s : upstreamSessionState)
    (hpresent : GoMap.get m.serverSessions k = some s) :
    (m.Close up w k).1 = none ∧
    (∀ k', GoMap.get (m.Close up w k).2.1.serverSessions k' =
      if k' = k then none else GoMap.get m.serverSessions k') ∧
    (m.Close up w k).2.2.log = w.log ++ [.Close s.client] ∧
    ((m.Close up w k).2.1.Close up (m.Close up w k).2.2 k).1 =
      some (.ErrorfString (lit "unknown session %q") k) := by
  have hc : m.Close up w k =
      (none, { m with serverSessions := GoMap.delete m.serverSessions k },
        s.client.Close up w) := by
    simp [mcpAuthImpl.Close, hpresent]
  rw [hc]
  refine ⟨rfl, fun k' => GoMap.get_delete _ _ _, rfl, ?_⟩
  have habsent : GoMap.get (GoMap.delete m.serverSessions k) k = none := by
    rw [GoMap.get_delete]
    simp
  simp [mcpAuthImpl.Close, habsent]

theorem Close_removes_session_witness :
    (staleBroker.Close exampleUpstream staleWorld (lit "caller-a")).1 = none ∧
    (∀ k', GoMap.get (staleBroker.Close exampleUpstream staleWorld (lit "caller-a")).2.1.serverSessions
        k' =
      if k' = lit "caller-a" then none else GoMap.get staleBroker.serverSessions k') ∧
    (staleBroker.Close exampleUpstream staleWorld (lit "caller-a")).2.2.log =
      staleWorld.log ++ [.Close { id := 0, url := exampleBroker.url, options := [] }] ∧
    ((staleBroker.Close exampleUpstream staleWorld (lit "caller-a")).2.1.Close exampleUpstream
        (staleBroker.Close exampleUpstream staleWorld (lit "caller-a")).2.2 (lit "caller-a")).1 =
      some (.ErrorfString (lit "unknown session %q") (lit "caller-a")) :=
  Close_removes_session exampleUpstream staleBroker staleWorld (lit "caller-a")
    { initialized := true
      client := { id := 0, url := exampleBroker.url, options := [] }
      sessionID := lit "upstream-session"
      lastContact := 5 }
    (by decide)

/-! ## The catalog publisher -/

theorem foldl_toolToServerTool (acc : List server.ServerTool) (newTools : List mcp.Tool) :
    newTools.foldl (fun tools newTool => tools ++ [toolToServerTool newTool]) acc =
      acc ++ newTools.map toolToServerTool := by
  induction newTools generalizing acc with
  | nil => simp
  | cons t rest ih => simp [ih]

/-- C10: for the broker's own implementation of `MCPUpstream` and every list
of upstream tools, `ToolsToServerTools` returns a list of the same length
whose i-th entry carries the i-th input tool unchanged, so the tools
published are exactly the tools listed, in the same order. -/
theorem ToolsToServerTools_passes_tools_through (m : mcpAuthImpl) (mcpURL : GoString)
    (newTools : List mcp.Tool) :
    ∃ tools, ToolsToServerTools (.mcpAuthImpl m) mcpURL newTools = .ok tools ∧
      tools.length = newTools.length ∧
      (∀ i : Nat, (tools[i]?).map server.ServerTool.Tool = newTools[i]?) ∧
      tools.map server.ServerTool.Tool = newTools := by
  refine ⟨newTools.map toolToServerTool, ?_, ?_, ?_, ?_⟩
  · simp [ToolsToServerTools, foldl_toolToServerTool]
  · simp
  · intro i
    simp [List.getElem?_map, toolToServerTool, Function.comp_def]
  · simp [toolToServerTool, Function.comp_def]

/-! ## The consistency invariant is kept -/

theorem Consistent_of_steps (m m' : mcpAuthImpl) (w w' : World) (h : Consistent m w)
    (hnext : w.nextClient ≤ w'.nextClient)
    (htable : ∀ kv ∈ m'.serverSessions,
      kv.2.client.id < w'.nextClient ∨ ∃ kv0 ∈ m.serverSessions, kv0.2.client = kv.2.client)
    (hlog : ∀ e ∈ w'.log, e ∈ w.log ∨ ∀ c ∈ e.clients, c.id < w'.nextClient) :
    Consistent m' w' := by
  obtain ⟨h1, h2⟩ := h
  constructor
  · intro kv hkv
    rcases htable kv hkv with hlt | ⟨kv0, hkv0, heq⟩
    · exact hlt
    · rw [← heq]
      exact lt_of_lt_of_le (h1 kv0 hkv0) hnext
  · intro e he c hc
    rcases hlog e he with hold | hnew
    · exact lt_of_lt_of_le (h2 e hold c hc) hnext
    · exact hnew c hc

/-- The broker that `MakeMCPServer` builds is consistent with a world in
which nothing has happened. -/
theorem Consistent_start (url : GoString) (tools : List mcp.Tool) (now : Nat) :
    Consistent { url := url, serverSessions := [], tools := tools }
      { nextClient := 0, log := [], now := now } := by
  simp [Consistent]

theorem createUpstreamSession_world (up : Upstream) (env : os.Environ) (m : mcpAuthImpl)
    (w : World) (auth : GoString) (options : List transport.StreamableHTTPCOption) :
    w.nextClient ≤ (m.createUpstreamSession up env w auth options).2.nextClient ∧
    (∀ e ∈ (m.createUpstreamSession up env w auth options).2.log,
      e ∈ w.log ∨
        ∀ c ∈ e.clients, c.id < (m.createUpstreamSession up env w auth options).2.nextClient) ∧
    ∀ s, (m.createUpstreamSession up env w auth options).1 = .ok s →
      s.client.id < (m.createUpstreamSession up env w auth options).2.nextClient := by
  simp only [mcpAuthImpl.createUpstreamSession, mcpAuthImpl.createMCPClient,
    client.NewStreamableHttpClient, client.Client.Initialize, client.Client.Close]
  cases hnew : up.newClientErr w m.url
      (if getAuthorizationHeaderFromBearer env auth ≠ lit "" then
        options ++
          [.WithHTTPHeaders [(lit "Authorization", getAuthorizationHeaderFromBearer env auth)]]
      else options) with
  | some err =>
    simp only [World.record]
    refine ⟨le_refl _, ?_, ?_⟩
    · intro e he
      simp only [List.mem_append, List.mem_singleton] at he
      rcases he with he | rfl
      · exact Or.inl he
      · exact Or.inr (by simp [Event.clients])
    · intro s hs
      cases hs
  | none =>
    simp only [World.record]
    generalize up.initializeErr _ _ = r
    cases r with
    | some err =>
      refine ⟨Nat.le_succ _, ?_, ?_⟩
      · intro e he
        simp only [List.mem_append, List.mem_singleton, List.append_assoc, List.mem_cons,
          List.not_mem_nil, or_false] at he
        rcases he with he | rfl | rfl | rfl
        · exact Or.inl he
        · exact Or.inr (by simp [Event.clients])
        · exact Or.inr (by simp [Event.clients])
        · exact Or.inr (by simp [Event.clients])
      · intro s hs
        cases hs
    | none =>
      refine ⟨Nat.le_succ _, ?_, ?_⟩
      · intro e he
        simp only [List.mem_append, List.mem_singleton, List.append_assoc, List.mem_cons,
          List.not_mem_nil, or_false] at he
        rcases he with he | rfl | rfl
        · exact Or.inl he
        · exact Or.inr (by simp [Event.clients])
        · exact Or.inr (by simp [Event.clients])
      · intro s hs
        simp only [Except.ok.injEq] at hs
        subst hs
        simp

theorem forward_Consistent (up : Upstream) (m : mcpAuthImpl) (w : World)
    (k : downstreamSessionID) (s : upstreamSessionState) (request : mcp.CallToolRequest)
    (h : Consistent m w) (hs : s.client.id < w.nextClient) :
    Consistent (m.forward up w k s request).2.1 (m.forward up w k s request).2.2 := by
  rw [forward_eq]
  refine Consistent_of_steps m _ w _ h ?_ ?_ ?_
  · exact le_refl _
  · intro kv hkv
    by_cases herr : (up.callTool w s.client request).2 = none
    · simp only [herr, ne_eq, not_true_eq_false, if_false] at hkv
      exact Or.inr ⟨kv, hkv, rfl⟩
    · simp only [herr, ne_eq, not_false_eq_true, if_true] at hkv
      rcases GoMap.mem_set _ _ _ _ hkv with heq | hold
      · left
        rw [heq]
        exact hs
      · exact Or.inr ⟨kv, hold, rfl⟩
  · intro e he
    simp only [World.record, List.mem_append, List.mem_singleton] at he
    rcases he with he | rfl
    · exact Or.inl he
    · right
      intro c hc
      simp only [Event.clients, List.mem_singleton] at hc
      rw [hc]
      exact hs

/-- `CallTool` keeps the broker consistent with the world. -/
theorem CallTool_Consistent (up : Upstream) (env : os.Environ) (m : mcpAuthImpl) (w : World)
    (k : downstreamSessionID) (request : mcp.CallToolRequest) (h : Consistent m w) :
    Consistent (m.CallTool up env w k request).2.1 (m.CallTool up env w k request).2.2 := by
  cases hget : GoMap.get m.serverSessions k with
  | some s =>
    rw [CallTool_present up env m w k request s hget]
    exact forward_Consistent up m w k s request h (h.1 _ (GoMap.mem_of_get _ _ _ hget))
  | none =>
    obtain ⟨hnext, hlog, hok⟩ := createUpstreamSession_world up env m w
      (request.Header.Get (lit "Authorization"))
      (if getAuthorizationHeaderFromBearer env (request.Header.Get (lit "Authorization")) ≠ lit ""
        then [.WithHTTPHeaders [(lit "Authorization",
          getAuthorizationHeaderFromBearer env (request.Header.Get (lit "Authorization")))]]
        else [])
    change w.nextClient ≤ (m.openSession up env w request).2.nextClient at hnext
    change ∀ e ∈ (m.openSession up env w request).2.log,
      e ∈ w.log ∨ ∀ c ∈ e.clients, c.id < (m.openSession up env w request).2.nextClient at hlog
    change ∀ s, (m.openSession up env w request).1 = .ok s →
      s.client.id < (m.openSession up env w request).2.nextClient at hok
    cases hopen : m.openSession up env w request with
    | mk r w1 =>
      rw [hopen] at hnext hlog hok
      cases r with
      | error e =>
        rw [CallTool_absent_error up env m w k request hget e w1 hopen]
        exact Consistent_of_steps m m w w1 h hnext (fun kv hkv => Or.inr ⟨kv, hkv, rfl⟩) hlog
      | ok s =>
        rw [CallTool_absent_ok up env m w k request hget s w1 hopen]
        apply forward_Consistent
        · refine Consistent_of_steps m _ w w1 h hnext ?_ hlog
          intro kv hkv
          rcases GoMap.mem_set _ _ _ _ hkv with heq | hold
          · left
            rw [heq]
            exact hok s rfl
          · exact Or.inr ⟨kv, hold, rfl⟩
        · exact hok s rfl

/-- `Close` keeps the broker consistent with the world. -/
theorem Close_Consistent (up : Upstream) (m : mcpAuthImpl) (w : World)
    (k : downstreamSessionID) (h : Consistent m w) :
    Consistent (m.Close up w k).2.1 (m.Close up w k).2.2 := by
  cases hget : GoMap.get m.serverSessions k with
  | none =>
    simp only [mcpAuthImpl.Close, hget]
    exact h
  | some s =>
    simp only [mcpAuthImpl.Close, hget, client.Client.Close]
    refine Consistent_of_steps m _ w _ h ?_ ?_ ?_
    · exact le_refl _
    · intro kv hkv
      exact Or.inr ⟨kv, GoMap.mem_delete _ _ _ hkv, rfl⟩
    · intro e he
      simp only [World.record, List.mem_append, List.mem_singleton] at he
      rcases he with he | rfl
      · exact Or.inl he
      · right
        intro c hc
        simp only [Event.clients, List.mem_singleton] at hc
        rw [hc]
        exact h.1 _ (GoMap.mem_of_get _ _ _ hget)

/-- After `Close`, a `CallTool` for the same caller ID that opens a session
holds a client object other than the closed one. -/
theorem Close_then_CallTool_new_client (up : Upstream) (env : os.Environ) (m : mcpAuthImpl)
    (w : World) (k : downstreamSessionID) (request : mcp.CallToolRequest)
    (closed : upstreamSessionState) (hcons : Consistent m w)
    (hpresent : GoMap.get m.serverSessions k = some closed) (s : upstreamSessionState)
    (w1 : World)
    (hopen : (m.Close up w k).2.1.openSession up env (m.Close up w k).2.2 request = (.ok s, w1)) :
    s.client ≠ closed.client := by
  obtain ⟨hclient, _, _, _⟩ := createUpstreamSession_ok up env _ _ _ _ s w1 hopen
  have hid : s.client.id = (m.Close up w k).2.2.nextClient := by rw [hclient]
  have hnext : (m.Close up w k).2.2.nextClient = w.nextClient := by
    simp [mcpAuthImpl.Close, hpresent, client.Client.Close, World.record]
  have hold : closed.client.id < w.nextClient := hcons.1 _ (GoMap.mem_of_get _ _ _ hpresent)
  intro heq
  rw [heq, hnext] at hid
  omega

/-! ## The translator is total and closed over the configuration -/

theorem goIndex_of_lt {α : Type} (xs : List α) (i : Nat) (h : i < xs.length) :
    goIndex xs i = .ok xs[i] := by
  simp [goIndex, List.getElem?_eq_getElem h]

theorem decodedTokenChecked_eq (token : GoString) :
    decodedTokenChecked token = .ok (decodedToken token) := by
  unfold decodedTokenChecked decodedToken
  by_cases h : (strings.Split token 46).length = 3
  · have h1 : 1 < (strings.Split token 46).length := by omega
    simp only [h, if_true, dif_pos, goIndex_of_lt _ 1 h1]
    cases base64.DecodeString (strings.Split token 46)[1] <;> rfl
  · simp only [h, if_false, dif_neg, not_false_eq_true]

theorem getAuthChecked_eq (env : os.Environ) (auth : GoString) :
    getAuthorizationHeaderFromBearerChecked env auth =
      .ok (getAuthorizationHeaderFromBearer env auth) := by
  unfold getAuthorizationHeaderFromBearerChecked getAuthorizationHeaderFromBearer
  by_cases hp : strings.HasPrefix auth (lit "Bearer ") = true
  · simp only [hp, Bool.not_true, Bool.false_eq_true, if_false, decodedTokenChecked_eq]
    cases GoMap.get (decodedToken (strings.TrimPrefix auth (lit "Bearer "))) (lit "scope") with
    | none => rfl
    | some v =>
      cases v with
      | string scopesStr =>
        simp only []
        split <;> rfl
      | _ => rfl
  · simp [hp]

/-- For a fixed required scope, the inbound value only selects which of the
three results is returned, the same one for every configuration with that
required scope. -/
theorem getAuth_choice (r auth : GoString) :
    (∀ env, os.Getenv env (lit "REQUIRED_SCOPE") = r →
      getAuthorizationHeaderFromBearer env auth = lit "") ∨
    (∀ env, os.Getenv env (lit "REQUIRED_SCOPE") = r →
      getAuthorizationHeaderFromBearer env auth =
        os.Getenv env (lit "UPSTREAM_HEADER_TO_USE_IF_IN_AUDIENCE")) ∨
    (∀ env, os.Getenv env (lit "REQUIRED_SCOPE") = r →
      getAuthorizationHeaderFromBearer env auth =
        os.Getenv env (lit "UPSTREAM_HEADER_TO_USE_IF_NOT_IN_AUDIENCE")) := by
  by_cases hp : lit "Bearer " <+: auth
  · obtain ⟨token, rfl⟩ := hp
    cases hg : GoMap.get (decodedToken token) (lit "scope") with
    | none =>
      left
      intro env _
      rw [getAuth_bearer, hg, lit_empty]
    | some v =>
      cases v with
      | string s =>
        by_cases hr : r ∈ s.splitOn 32
        · right; left
          intro env henv
          rw [getAuth_bearer, hg]
          simp only [henv, hr, if_true]
        · right; right
          intro env henv
          rw [getAuth_bearer, hg]
          simp only [henv, hr, if_false]
      | _ =>
        left
        intro env _
        rw [getAuth_bearer, hg, lit_empty]
  · left
    intro env _
    rw [getAuth_not_bearer env auth hp, lit_empty]

/-- C11: for every inbound value and every configuration the translator,
run with the bounds check of `tokenParts[1]` that Go performs, does not panic
and returns a string; that string is the empty string, the configured match
credential or the configured no-match credential, and for a fixed required
scope the inbound value only selects which of the three, so no byte of the
result is taken from the token.  The empty inbound value gives the empty
string. -/
theorem getAuthorizationHeaderFromBearer_total (auth : GoString) :
    (∀ env, getAuthorizationHeaderFromBearerChecked env auth =
      .ok (getAuthorizationHeaderFromBearer env auth)) ∧
    (∀ env, getAuthorizationHeaderFromBearer env auth = lit "" ∨
      getAuthorizationHeaderFromBearer env auth =
        os.Getenv env (lit "UPSTREAM_HEADER_TO_USE_IF_IN_AUDIENCE") ∨
      getAuthorizationHeaderFromBearer env auth =
        os.Getenv env (lit "UPSTREAM_HEADER_TO_USE_IF_NOT_IN_AUDIENCE")) ∧
    (∀ r,
      (∀ env, os.Getenv env (lit "REQUIRED_SCOPE") = r →
        getAuthorizationHeaderFromBearer env auth = lit "") ∨
      (∀ env, os.Getenv env (lit "REQUIRED_SCOPE") = r →
        getAuthorizationHeaderFromBearer env auth =
          os.Getenv env (lit "UPSTREAM_HEADER_TO_USE_IF_IN_AUDIENCE")) ∨
      (∀ env, os.Getenv env (lit "REQUIRED_SCOPE") = r →
        getAuthorizationHeaderFromBearer env auth =
          os.Getenv env (lit "UPSTREAM_HEADER_TO_USE_IF_NOT_IN_AUDIENCE"))) ∧
    (∀ env, getAuthorizationHeaderFromBearerChecked env (lit "") = .ok (lit "")) := by
  refine ⟨fun env => getAuthChecked_eq env auth, ?_, fun r => getAuth_choice r auth, ?_⟩
  · intro env
    rcases getAuth_choice (os.Getenv env (lit "REQUIRED_SCOPE")) auth with h | h | h
    · exact Or.inl (h env rfl)
    · exact Or.inr (Or.inl (h env rfl))
    · exact Or.inr (Or.inr (h env rfl))
  · intro env
    rw [getAuthChecked_eq, getAuth_not_bearer env (lit "") (by decide), lit_empty]

theorem getAuthorizationHeaderFromBearer_total_witness :
    getAuthorizationHeaderFromBearerChecked exampleEnv (lit "") = .ok (lit "") ∧
    getAuthorizationHeaderFromBearerChecked exampleEnv (lit "Basic dXNlcjpwdw==") = .ok (lit "") ∧
    getAuthorizationHeaderFromBearerChecked exampleEnv (lit "Bearer h.!not-base64!.s") =
      .ok (lit "") ∧
    getAuthorizationHeaderFromBearerChecked exampleEnv (lit "Bearer h.aGVsbG8=.s") =
      .ok (lit "") ∧
    getAuthorizationHeaderFromBearerChecked exampleEnv (bearerOf adminPayload) =
      .ok (lit "Bearer match-credential") ∧
    getAuthorizationHeaderFromBearerChecked exampleEnv (bearerOf administratorPayload) =
      .ok (lit "Bearer no-match-credential") :=
  ⟨(getAuthorizationHeaderFromBearer_total (lit "")).2.2.2 exampleEnv,
    ((getAuthorizationHeaderFromBearer_total (lit "Basic dXNlcjpwdw==")).1 exampleEnv).trans
      (congrArg Except.ok (by decide)),
    ((getAuthorizationHeaderFromBearer_total (lit "Bearer h.!not-base64!.s")).1 exampleEnv).trans
      (congrArg Except.ok (by decide)),
    ((getAuthorizationHeaderFromBearer_total (lit "Bearer h.aGVsbG8=.s")).1 exampleEnv).trans
      (congrArg Except.ok (by decide)),
    ((getAuthorizationHeaderFromBearer_total (bearerOf adminPayload)).1 exampleEnv).trans
      (congrArg Except.ok (by decide)),
    ((getAuthorizationHeaderFromBearer_total (bearerOf administratorPayload)).1 exampleEnv).trans
      (congrArg Except.ok (by decide))⟩

/-! ## Startup exit codes -/

/-- `MakeMCPServer` never returns an error: it ends the process or returns a
broker, because `MakeDownstream` has no failing path. -/
theorem MakeMCPServer_no_error (a : StartupAnswers)
    (mcpServerURL initAuthHeader listenAddr : GoString) (listenPort : Int) (e : error) :
    MakeMCPServer a mcpServerURL initAuthHeader listenAddr listenPort ≠ .ret (.error e) := by
  unfold MakeMCPServer MakeDownstream
  cases MakeUpstream a mcpServerURL initAuthHeader with
  | error err => simp
  | ok c =>
    cases a.listTools with
    | error err => simp
    | ok tools => simp

/-- A failing `MakeUpstream` ends the process with code 3. -/
theorem MakeMCPServer_upstream_failure (a : StartupAnswers)
    (mcpServerURL initAuthHeader listenAddr : GoString) (listenPort : Int) (e : error)
    (h : MakeUpstream a mcpServerURL initAuthHeader = .error e) :
    MakeMCPServer a mcpServerURL initAuthHeader listenAddr listenPort = .exit 3 := by
  simp [MakeMCPServer, h]

/-- A failing `ListTools` ends the process with code 4. -/
theorem MakeMCPServer_listTools_failure (a : StartupAnswers)
    (mcpServerURL initAuthHeader listenAddr : GoString) (listenPort : Int) (c : client.Client)
    (e : error) (hup : MakeUpstream a mcpServerURL initAuthHeader = .ok c)
    (hlist : a.listTools = .error e) :
    MakeMCPServer a mcpServerURL initAuthHeader listenAddr listenPort = .exit 4 := by
  simp [MakeMCPServer, hup, hlist]

theorem listenerPort_cases (env : os.Environ) :
    (∃ port, listenerPort env = .ret port) ∨ ∃ msg, listenerPort env = .panic msg := by
  unfold listenerPort
  simp only []
  split
  · cases strconv.Atoi (os.Getenv env (lit "LISTENER_PORT")) with
    | none => exact Or.inr ⟨_, rfl⟩
    | some port => exact Or.inl ⟨_, rfl⟩
  · exact Or.inl ⟨_, rfl⟩

/-- What `MakeMCPServer` does: it ends the process with code 3 when
`MakeUpstream` fails, with code 4 when `ListTools` fails, and returns a broker
with an empty session table otherwise. -/
theorem MakeMCPServer_cases (a : StartupAnswers)
    (mcpServerURL initAuthHeader listenAddr : GoString) (listenPort : Int) :
    ((∃ e, MakeUpstream a mcpServerURL initAuthHeader = .error e) ∧
      MakeMCPServer a mcpServerURL initAuthHeader listenAddr listenPort = .exit 3) ∨
    ((∃ e, a.listTools = .error e) ∧
      MakeMCPServer a mcpServerURL initAuthHeader listenAddr listenPort = .exit 4) ∨
    ∃ tools, a.listTools = .ok tools ∧
      MakeMCPServer a mcpServerURL initAuthHeader listenAddr listenPort =
        .ret (.ok { url := mcpServerURL, serverSessions := [], tools := tools }) := by
  unfold MakeMCPServer MakeDownstream
  cases hup : MakeUpstream a mcpServerURL initAuthHeader with
  | error err => exact Or.inl ⟨⟨err, rfl⟩, rfl⟩
  | ok c =>
    cases hl : a.listTools with
    | error err => exact Or.inr (Or.inl ⟨⟨err, rfl⟩, rfl⟩)
    | ok tools => exact Or.inr (Or.inr ⟨tools, rfl, rfl⟩)

theorem mainServe_ok (mcpServerURL : GoString) (m : mcpAuthImpl) :
    ∃ sv, mainServe mcpServerURL (.ok m) = .ret sv := by
  simp [mainServe, ToolsToServerTools]

/-- The exit statuses of the startup path: none when serving starts, 1, 2 for
the panic of `listenerPort`, 3 or 4; status 4 occurs only when `ListTools`
fails, never through an error returned by `MakeMCPServer`. -/
theorem main_exitStatus (env : os.Environ) (a : StartupAnswers) :
    ((main env a).exitStatus = none ∨ (main env a).exitStatus = some 1 ∨
      (main env a).exitStatus = some 2 ∨ (main env a).exitStatus = some 3 ∨
      (main env a).exitStatus = some 4) ∧
    ((main env a).exitStatus = some 4 → ∃ e, a.listTools = .error e) := by
  unfold main
  simp only []
  split
  · simp [Run.exitStatus]
  · rcases listenerPort_cases env with ⟨port, hport⟩ | ⟨msg, hmsg⟩
    · rw [hport]
      simp only []
      rcases MakeMCPServer_cases a
          (if os.Getenv env (lit "UPSTREAM_MCP") = lit "" then
            lit "https://api.githubcopilot.com/mcp/"
          else os.Getenv env (lit "UPSTREAM_MCP"))
          (os.Getenv env (lit "INIT_AUTH_HEADER")) (listenerHost env) port with
        ⟨_, h⟩ | ⟨he, h⟩ | ⟨tools, _, h⟩
      · rw [h]
        simp [Run.exitStatus]
      · rw [h]
        simp [Run.exitStatus, he]
      · rw [h]
        simp only []
        obtain ⟨sv, hsv⟩ := mainServe_ok
          (if os.Getenv env (lit "UPSTREAM_MCP") = lit "" then
            lit "https://api.githubcopilot.com/mcp/"
          else os.Getenv env (lit "UPSTREAM_MCP"))
          { url := (if os.Getenv env (lit "UPSTREAM_MCP") = lit "" then
              lit "https://api.githubcopilot.com/mcp/"
            else os.Getenv env (lit "UPSTREAM_MCP")), serverSessions := [], tools := tools }
        rw [hsv]
        simp [Run.exitStatus]
    · rw [hmsg]
      simp [Run.exitStatus]

theorem main_missing_credential (env : os.Environ) (a : StartupAnswers)
    (h : os.Getenv env (lit "INIT_AUTH_HEADER") = lit "") : main env a = .exit 1 := by
  simp [main, h]

theorem main_listTools_failure (env : os.Environ) (a : StartupAnswers) (port : Int)
    (c : client.Client) (e : error)
    (hcred : os.Getenv env (lit "INIT_AUTH_HEADER") ≠ lit "")
    (hport : listenerPort env = .ret port)
    (hup : MakeUpstream a
      (if os.Getenv env (lit "UPSTREAM_MCP") = lit "" then lit "https://api.githubcopilot.com/mcp/"
        else os.Getenv env (lit "UPSTREAM_MCP"))
      (os.Getenv env (lit "INIT_AUTH_HEADER")) = .ok c)
    (hlist : a.listTools = .error e) : main env a = .exit 4 := by
  simp only [main, hcred, if_false, hport,
    MakeMCPServer_listTools_failure a _ _ _ _ c e hup hlist]

/-- The branch of `main` for an error returned by `MakeMCPServer` ends the
process with code 4, the code of a failing `ListTools`; by
`MakeMCPServer_no_error` no run of `main` takes that branch. -/
theorem mainServe_error (mcpServerURL : GoString) (e : error) :
    mainServe mcpServerURL (.error e) = .exit 4 := by
  rfl

/-- No run of `main` ends with `MakeMCPServer` returning an error to it. -/
theorem not_ReturnsErrorToMain (env : os.Environ) (a : StartupAnswers) :
    ¬ ReturnsErrorToMain env a := by
  rintro ⟨_, port, e, _, h⟩
  exact MakeMCPServer_no_error a _ _ _ _ e h

theorem main_of_MissingCredential (env : os.Environ) (a : StartupAnswers)
    (h : MissingCredential env) : main env a = .exit 1 :=
  main_missing_credential env a h

theorem main_of_ListToolsFails (env : os.Environ) (a : StartupAnswers)
    (h : ListToolsFails env a) : main env a = .exit 4 := by
  obtain ⟨hcred, ⟨port, hport⟩, ⟨c, hup⟩, ⟨e, hlist⟩⟩ := h
  exact main_listTools_failure env a port c e hcred hport hup hlist

/-- C12: on the runs of the startup path the three fatal conditions end the
process with pairwise distinct nonzero exit codes.  A run with an empty
`INIT_AUTH_HEADER` exits with code 1, a run in which `ListTools` fails in
`MakeMCPServer` exits with code 4, and no run ends with `MakeMCPServer`
returning an error to `main` (`MakeDownstream` has no failing path); so a run
in any of the three conditions exits with a nonzero code, and two runs in
different conditions never exit with the same code. -/
theorem main_fatal_exit_codes_distinct (env₁ env₂ : os.Environ) (a₁ a₂ : StartupAnswers) :
    (MissingCredential env₁ → main env₁ a₁ = .exit 1) ∧
    (ListToolsFails env₁ a₁ → main env₁ a₁ = .exit 4) ∧
    ¬ ReturnsErrorToMain env₁ a₁ ∧
    (MissingCredential env₁ ∨ ListToolsFails env₁ a₁ ∨ ReturnsErrorToMain env₁ a₁ →
      ∃ code, main env₁ a₁ = .exit code ∧ code ≠ 0) ∧
    (MissingCredential env₁ → ListToolsFails env₂ a₂ →
      (main env₁ a₁).exitStatus ≠ (main env₂ a₂).exitStatus) ∧
    (ReturnsErrorToMain env₁ a₁ → ListToolsFails env₂ a₂ →
      (main env₁ a₁).exitStatus ≠ (main env₂ a₂).exitStatus) ∧
    (ReturnsErrorToMain env₁ a₁ → MissingCredential env₂ →
      (main env₁ a₁).exitStatus ≠ (main env₂ a₂).exitStatus) := by
  refine ⟨main_of_MissingCredential env₁ a₁, main_of_ListToolsFails env₁ a₁,
    not_ReturnsErrorToMain env₁ a₁, ?_, ?_, ?_, ?_⟩
  · rintro (h | h | h)
    · exact ⟨1, main_of_MissingCredential env₁ a₁ h, by decide⟩
    · exact ⟨4, main_of_ListToolsFails env₁ a₁ h, by decide⟩
    · exact absurd h (not_ReturnsErrorToMain env₁ a₁)
  · intro h1 h2
    rw [main_of_MissingCredential env₁ a₁ h1, main_of_ListToolsFails env₂ a₂ h2]
    decide
  · intro h
    exact absurd h (not_ReturnsErrorToMain env₁ a₁)
  · intro h
    exact absurd h (not_ReturnsErrorToMain env₁ a₁)

theorem main_fatal_exit_codes_distinct_witness :
    MissingCredential [] ∧
    ListToolsFails startupEnv listToolsFailing ∧
    main [] startupAnswers = .exit 1 ∧
    main startupEnv listToolsFailing = .exit 4 ∧
    (main [] startupAnswers).exitStatus ≠ (main startupEnv listToolsFailing).exitStatus :=
  have h1 : MissingCredential [] := by
    unfold MissingCredential
    decide
  have h2 : ListToolsFails startupEnv listToolsFailing :=
    ⟨by decide, ⟨9090, rfl⟩,
      ⟨{ id := 0
         url := lit "https://api.githubcopilot.com/mcp/"
         options :=
           [.WithContinuousListening,
             .WithHTTPHeaders [(lit "Authorization", lit "Bearer startup-token")]] }, rfl⟩,
      ⟨.library (lit "tools/list failed"), rfl⟩⟩
  ⟨h1, h2,
    (main_fatal_exit_codes_distinct [] startupEnv startupAnswers listToolsFailing).1 h1,
    (main_fatal_exit_codes_distinct startupEnv [] listToolsFailing startupAnswers).2.1 h2,
    (main_fatal_exit_codes_distinct [] startupEnv startupAnswers listToolsFailing).2.2.2.2.1
      h1 h2⟩

end Gateway
